import Mathlib

/-!
Shallow embedding of the selector-resolution and table-join engine of
ngtsio_get.py, together with proofs settling the frozen claims about it.
Python lists become Lean lists, numpy 1-D/2-D arrays become lists and lists
of lists, floats become an explicit value type with a distinguished NaN,
and fatal aborts (sys.exit / uncaught exceptions) become Option.none.
All loops are written with explicit structural fuel chosen large enough to
be exact, so every definition is kernel-computable.
-/

namespace Ngtsio

/-- Numeric cell value: a rational standing for a Python float, or NaN.
NaN is only ever assigned or compared for identity by the modelled code;
the model never does NaN arithmetic beyond propagation. -/
inductive Val where
  | num (q : ℚ)
  | nan
deriving DecidableEq

/-- NaN > 0 is False in IEEE comparison, mirrored here. -/
def valGt0 : Val → Bool
  | .num q => decide (0 < q)
  | .nan => false

/-- Scalar multiplication, NaN-propagating (used for unit rescaling). -/
def valMul (c : ℚ) : Val → Val
  | .num q => .num (c * q)
  | .nan => .nan

/-- (v + bzero) / precision, the pixel/centroid unit correction with the
default bzero = 0 kept as an explicit addition. -/
def valCorr (bzero precision : ℚ) : Val → Val
  | .num q => .num ((q + bzero) / precision)
  | .nan => .nan

/-- Python str.strip() / np.char.strip: drop leading and trailing whitespace. -/
def pstrip (s : String) : String :=
  ⟨((s.data.dropWhile Char.isWhitespace).reverse.dropWhile Char.isWhitespace).reverse⟩

/-- Split a character list at every occurrence of c (Python str.split(c)). -/
def splitOnChar (c : Char) : List Char → List (List Char)
  | [] => [[]]
  | x :: xs =>
    let r := splitOnChar c xs
    if x == c then [] :: r else (x :: r.headD []) :: r.tail

def digitVal (c : Char) : Nat := c.toNat - 48

def parseDigits (cs : List Char) : Option Nat :=
  if cs ≠ [] ∧ cs.all Char.isDigit then
    some (cs.foldl (fun a c => 10 * a + digitVal c) 0)
  else none

/-- Python int() on a string: optional sign followed by digits.  (The real
int() also tolerates surrounding whitespace, which never occurs in the
inputs the source feeds it.) -/
def pyToInt (s : String) : Option Int :=
  match s.data with
  | '-' :: rest => (parseDigits rest).map (fun n => -(n : Int))
  | '+' :: rest => (parseDigits rest).map (fun n => (n : Int))
  | cs => (parseDigits cs).map (fun n => (n : Int))

/-!
## objid_6digit (source lines 703-712)

The source loops `while len(obj_id) < 6: obj_id = '0' + obj_id` over every
entry of the list, writing the padded value back in place.  The loop runs at
most 6 times, which the fuel makes explicit.
-/

def pad6Aux : Nat → String → String
  | 0, s => s
  | k + 1, s => if s.length < 6 then pad6Aux k (String.mk ('0' :: s.data)) else s

/-- One entry of the padding loop of objid_6digit. -/
def pad6 (s : String) : String := pad6Aux 6 s

/-- objid_6digit: left-pad every identifier with zeros up to 6 characters. -/
def objid_6digit (l : List String) : List String :=
  l.map pad6

/-!
## Calendar arithmetic for the date-range expander

Python datetime objects are modelled by their proleptic-Gregorian ordinal
(toordinal; 0001-01-01 is day 1), which is what comparison and
timedelta(days=1) act on.
-/

def isLeap (y : Nat) : Bool :=
  y % 4 == 0 && (y % 100 != 0 || y % 400 == 0)

def daysInMonth (y : Nat) (m : Nat) : Nat :=
  [31, if isLeap y then 29 else 28, 31, 30, 31, 30, 31, 31, 30, 31, 30, 31].getD (m - 1) 0

/-- Cumulative days before month m (1-based) in year y. -/
def daysBeforeMonth (y : Nat) (m : Nat) : Nat :=
  [0, 31, 59, 90, 120, 151, 181, 212, 243, 273, 304, 334].getD (m - 1) 0 +
    (if 2 < m && isLeap y then 1 else 0)

/-- date.toordinal for a (validated) year-month-day triple. -/
def ymd2ord (y m d : Nat) : Nat :=
  365 * (y - 1) + (y - 1) / 4 + (y - 1) / 400 - (y - 1) / 100 + daysBeforeMonth y m + d

/-- Find the month and day from a 0-based day-of-year, scanning the 12 months
upward; the fuel of 12 covers the whole scan. -/
def findMonthAux (leap : Bool) : Nat → Nat → Nat → Nat × Nat
  | 0, doy, m => (m, doy + 1)
  | k + 1, doy, m =>
    let dim := if m == 2 then (if leap then 29 else 28)
      else [31, 31, 28, 31, 30, 31, 30, 31, 31, 30, 31, 30, 31].getD m 0
    if 12 ≤ m then (12, doy + 1)
    else if doy < dim then (m, doy + 1)
    else findMonthAux leap k (doy - dim) (m + 1)

/-- Inverse of toordinal, following the 400/100/4/1-year cycle decomposition
used by CPython's datetime module. -/
def ord2ymd (nord : Nat) : Nat × Nat × Nat :=
  let n := nord - 1
  let n400 := n / 146097
  let r400 := n % 146097
  let n100 := r400 / 36524
  let r100 := r400 % 36524
  let n4 := r100 / 1461
  let r4 := r100 % 1461
  let n1 := r4 / 365
  let doy := r4 % 365
  let year := n400 * 400 + n100 * 100 + n4 * 4 + n1 + 1
  if n1 == 4 || n100 == 4 then (year - 1, 12, 31)
  else
    let md := findMonthAux (isLeap year) 12 doy 1
    (year, md.1, md.2)

/-- Validate a calendar date the way strptime does and return its ordinal. -/
def checkedOrd (y m d : Nat) : Option Nat :=
  if 1 ≤ y ∧ y ≤ 9999 ∧ 1 ≤ m ∧ m ≤ 12 ∧ 1 ≤ d ∧ d ≤ daysInMonth y m then
    some (ymd2ord y m d)
  else none

/-- strptime(s, "%Y%m%d") on an 8-character string. -/
def strptime8 (s : String) : Option Nat :=
  match s.data with
  | [y1, y2, y3, y4, m1, m2, d1, d2] =>
    match parseDigits [y1, y2, y3, y4], parseDigits [m1, m2], parseDigits [d1, d2] with
    | some y, some m, some d => checkedOrd y m d
    | _, _, _ => none
  | _ => none

/-- strptime(s, "%Y-%m-%d") on a 10-character string. -/
def strptime10 (s : String) : Option Nat :=
  match s.data with
  | [y1, y2, y3, y4, c1, m1, m2, c2, d1, d2] =>
    if c1 = '-' ∧ c2 = '-' then
      match parseDigits [y1, y2, y3, y4], parseDigits [m1, m2], parseDigits [d1, d2] with
      | some y, some m, some d => checkedOrd y m d
      | _, _, _ => none
    else none
  | _ => none

/-- Left-pad the decimal representation of n with zeros to width k. -/
def padZ (k : Nat) (n : Nat) : String :=
  let s := toString n
  String.mk (List.replicate (k - s.length) '0' ++ s.data)

/-- strftime("%Y-%m-%d") from an ordinal. -/
def strftimeYmd (nord : Nat) : String :=
  let ymd := ord2ymd nord
  padZ 4 ymd.1 ++ "-" ++ padZ 2 ymd.2.1 ++ "-" ++ padZ 2 ymd.2.2

/-- Single-character replace, modelling s.replace('/', '-'). -/
def pyReplace (s : String) (a b : Char) : String :=
  ⟨s.data.map (fun c => if c == a then b else c)⟩

/-!
## RangeExpander (source lines 982-1052)
-/

/-- solve_range: split "A:B" on the colon; any part count other than 2 makes
the unpacking fail, which the source turns into a fatal abort. -/
def solve_range (s : String) : Option (String × String) :=
  match (splitOnChar ':' s.data).map String.mk with
  | [a, b] => some (a, b)
  | _ => none

/-- Result of format_date on one endpoint: a parsed date ordinal, the string
left untouched (length neither 8 nor 10), or a strptime failure (which is an
uncaught ValueError, i.e. a crash). -/
inductive FDRes where
  | date (nord : Nat)
  | str (s : String)
  | err
deriving DecidableEq

/-- format_date on the start endpoint.  Note the source bug kept faithfully:
for a length-10 start the result of replace('/', '-') is discarded, so a
slashed start date fails to parse. -/
def format_date_start (s : String) : FDRes :=
  if s.length == 8 then
    match strptime8 s with
    | some n => .date n
    | none => .err
  else if s.length == 10 then
    match strptime10 s with
    | some n => .date n
    | none => .err
  else .str s

/-- format_date on the end endpoint (here the replace result is assigned). -/
def format_date_end (s : String) : FDRes :=
  if s.length == 8 then
    match strptime8 s with
    | some n => .date n
    | none => .err
  else if s.length == 10 then
    match strptime10 (pyReplace s '/' '-') with
    | some n => .date n
    | none => .err
  else .str s

/-- perdelta: yield curr while curr < end, stepping one day.  The fuel of
b - a is exactly the number of iterations of the source loop. -/
def perdeltaAux : Nat → Nat → Nat → List Nat
  | 0, _, _ => []
  | k + 1, a, b => if a < b then a :: perdeltaAux k (a + 1) b else []

def perdelta (a b : Nat) : List Nat := perdeltaAux (b - a) a b

/-- get_time_date_from_range.  When both endpoints stay unparsed strings the
Python 2 loop compares them as plain strings and crashes on the first
iteration (a str has no strftime), so only the empty-range case returns;
every mixed or failed parse aborts. -/
def get_time_date_from_range (s : String) : Option (List String) :=
  match solve_range s with
  | none => none
  | some se =>
    match format_date_start se.1, format_date_end se.2 with
    | .date a, .date b => some ((perdelta a b).map strftimeYmd)
    | .str u, .str v => if u < v then none else some []
    | _, _ => none

/-- Python 2 range(a, b) over integers. -/
def pyRange (a b : Int) : List Int :=
  (List.range (b - a).toNat).map (fun k : Nat => a + (k : Int))

/-- get_time_actionid_from_range: split, parse both ends with int(), and
enumerate range(start, end+1) — end inclusive. -/
def get_time_actionid_from_range (s : String) : Option (List Int) :=
  match solve_range s with
  | none => none
  | some se =>
    match pyToInt se.1, pyToInt se.2 with
    | some a, some b => some (pyRange a (b + 1))
    | _, _ => none

end Ngtsio

namespace Ngtsio

/-!
## Supporting lemmas for the range expander
-/

theorem perdeltaAux_eq_range' :
    ∀ (k a b : Nat), k = b - a → perdeltaAux k a b = List.range' a k := by
  intro k
  induction k with
  | zero => intro a b _; rfl
  | succ k ih =>
    intro a b hk
    have hab : a < b := by omega
    simp only [perdeltaAux, if_pos hab]
    rw [ih (a + 1) b (by omega)]
    rfl

theorem perdelta_eq_range' (a b : Nat) : perdelta a b = List.range' a (b - a) :=
  perdeltaAux_eq_range' (b - a) a b rfl

theorem mem_pyRange (a b z : Int) : z ∈ pyRange a b ↔ a ≤ z ∧ z < b := by
  constructor
  · intro hz
    obtain ⟨k, hk, hzk⟩ := List.mem_map.mp hz
    rw [List.mem_range] at hk
    omega
  · intro h
    exact List.mem_map.mpr ⟨(z - a).toNat, List.mem_range.mpr (by omega), by omega⟩

/-- C3: the range expander is asymmetric by design: a date range "A:B" with
parseable calendar-date endpoints expands to every whole day from A up to but
excluding B, while a batch/action-id range "A:B" with integer endpoints
expands to every integer from A through B inclusive; in particular
"2020-01-01:2020-01-04" yields exactly the three days 2020-01-01,
2020-01-02, 2020-01-03 and "100:103" yields exactly [100,101,102,103]. -/
theorem range_expander_spec
    (s t u v p q : String) (a b : Nat) (i j : Int)
    (hs : solve_range s = some (u, v))
    (hu : format_date_start u = .date a) (hv : format_date_end v = .date b)
    (ht : solve_range t = some (p, q))
    (hp : pyToInt p = some i) (hq : pyToInt q = some j) :
    (∃ L, get_time_date_from_range s = some L ∧
      L = (List.range' a (b - a)).map strftimeYmd ∧
      L.length = b - a ∧
      (∀ k, k < b - a → L.getD k "" = strftimeYmd (a + k))) ∧
    (∃ M, get_time_actionid_from_range t = some M ∧
      (∀ z : Int, z ∈ M ↔ i ≤ z ∧ z ≤ j)) ∧
    get_time_date_from_range "2020-01-01:2020-01-04" =
      some ["2020-01-01", "2020-01-02", "2020-01-03"] ∧
    get_time_actionid_from_range "100:103" = some [100, 101, 102, 103] := by
  refine ⟨⟨(perdelta a b).map strftimeYmd, ?_, ?_, ?_, ?_⟩,
    ⟨pyRange i (j + 1), ?_, ?_⟩, by decide, by decide⟩
  · simp only [get_time_date_from_range, hs, hu, hv]
  · rw [perdelta_eq_range']
  · rw [perdelta_eq_range']
    simp [List.length_range']
  · intro k hk
    rw [perdelta_eq_range']
    have hlen : k < ((List.range' a (b - a)).map strftimeYmd).length := by
      simpa [List.length_range'] using hk
    rw [List.getD_eq_getElem _ _ hlen]
    simp [List.getElem_range'_1]
  · simp only [get_time_actionid_from_range, ht, hp, hq]
  · intro z
    rw [mem_pyRange]
    omega

/-- Witness for range_expander_spec at the two concrete spec examples. -/
theorem range_expander_spec_witness :
    solve_range "2020-01-01:2020-01-04" = some ("2020-01-01", "2020-01-04") ∧
    (∃ M, get_time_actionid_from_range "100:103" = some M ∧
      (∀ z : Int, z ∈ M ↔ 100 ≤ z ∧ z ≤ 103)) := by
  refine ⟨by decide, ?_⟩
  exact (range_expander_spec "2020-01-01:2020-01-04" "100:103"
    "2020-01-01" "2020-01-04" "100" "103" 737425 737428 100 103
    (by decide) (by decide) (by decide) (by decide) (by decide) (by decide)).2.1

/-!
## Supporting lemmas for objid_6digit
-/

theorem pad6Aux_spec :
    ∀ (k : Nat) (s : String), 6 - s.length ≤ k →
      (pad6Aux k s).length = max 6 s.length ∧
      ∃ zs, (∀ c ∈ zs, c = '0') ∧ (pad6Aux k s).data = zs ++ s.data := by
  intro k
  induction k with
  | zero =>
    intro s hs
    have : 6 ≤ s.length := by omega
    exact ⟨by simp [pad6Aux]; omega, [], by simp, by simp [pad6Aux]⟩
  | succ k ih =>
    intro s hs
    by_cases h : s.length < 6
    · have hlen : (String.mk ('0' :: s.data)).length = s.length + 1 := rfl
      obtain ⟨hl, zs, hz, hd⟩ := ih (String.mk ('0' :: s.data)) (by omega)
      refine ⟨?_, zs ++ ['0'], ?_, ?_⟩
      · simp only [pad6Aux, if_pos h]
        rw [hl, hlen]
        omega
      · intro c hc
        rcases List.mem_append.mp hc with h1 | h2
        · exact hz c h1
        · simpa using h2
      · simp only [pad6Aux, if_pos h]
        rw [hd]
        simp
    · refine ⟨?_, [], by simp, ?_⟩
      · simp only [pad6Aux, if_neg h]
        omega
      · simp only [pad6Aux, if_neg h, List.nil_append]

/-- C9: identifier normalization left-pads with zeros so that (for inputs of
at most 6 characters, i.e. all valid object identifiers) the canonical form
has exactly 6 characters and keeps the original digits as its suffix;
in particular "46" maps to "000046" and "1337" maps to "001337". -/
theorem objid_6digit_spec (l : List String) (h : ∀ s ∈ l, s.length ≤ 6) :
    (objid_6digit l).length = l.length ∧
    (∀ k, k < l.length →
      ((objid_6digit l).getD k "").length = 6 ∧
      ∃ zs, (∀ c ∈ zs, c = '0') ∧
        ((objid_6digit l).getD k "").data = zs ++ (l.getD k "").data) ∧
    objid_6digit ["46"] = ["000046"] ∧ objid_6digit ["1337"] = ["001337"] := by
  refine ⟨by simp [objid_6digit], ?_, by decide, by decide⟩
  intro k hk
  have hk2 : k < (objid_6digit l).length := by simpa [objid_6digit] using hk
  have hget : (objid_6digit l).getD k "" = pad6 (l.getD k "") := by
    rw [List.getD_eq_getElem _ _ hk2, List.getD_eq_getElem _ _ hk]
    simp [objid_6digit]
  have hmem : l.getD k "" ∈ l := by
    rw [List.getD_eq_getElem _ _ hk]
    exact List.getElem_mem hk
  obtain ⟨hl, zs, hz, hd⟩ := pad6Aux_spec 6 (l.getD k "") (by omega)
  have h6 : (l.getD k "").length ≤ 6 := h _ hmem
  refine ⟨?_, zs, hz, ?_⟩
  · rw [hget]
    unfold pad6
    omega
  · rw [hget]
    exact hd

/-- Witness for objid_6digit_spec at the concrete spec example. -/
theorem objid_6digit_spec_witness :
    (∀ s ∈ ["46", "1337"], s.length ≤ 6) ∧
    objid_6digit ["46"] = ["000046"] ∧ objid_6digit ["1337"] = ["001337"] := by
  refine ⟨by decide, ?_⟩
  exact (objid_6digit_spec ["46", "1337"] (by decide)).2.2

end Ngtsio

namespace Ngtsio

/-!
## ObjectSelector: get_obj_inds and helpers (source lines 426-712)
-/

/-- np.sort on an integer array (ascending). -/
def np_sortI (l : List Int) : List Int := List.insertionSort (· ≤ ·) l

/-- Boolean lexicographic strict comparison of character lists, by code
point — the byte order np.sort uses on the fixed-width identifier column. -/
def lexLt : List Char → List Char → Bool
  | [], [] => false
  | [], _ :: _ => true
  | _ :: _, [] => false
  | a :: as, b :: bs =>
    if a.toNat < b.toNat then true
    else if b.toNat < a.toNat then false
    else lexLt as bs

def strLtB (a b : String) : Bool := lexLt a.data b.data

def strLeB (a b : String) : Bool := ! strLtB b a

/-- The (non-strict) lexicographic string order used for sorting. -/
def sLe (a b : String) : Prop := strLeB a b = true

/-- The strict lexicographic string order. -/
def sLt (a b : String) : Prop := strLtB a b = true

instance : DecidableRel sLe := fun a b => instDecidableEqBool (strLeB a b) true

instance : DecidableRel sLt := fun a b => instDecidableEqBool (strLtB a b) true

theorem charEqOfToNat {a b : Char} (h : a.toNat = b.toNat) : a = b :=
  Char.ofNat_toNat a ▸ Char.ofNat_toNat b ▸ congrArg Char.ofNat h

theorem strEqOfData {a b : String} (h : a.data = b.data) : a = b := by
  cases a
  cases b
  exact congrArg String.mk h

theorem lexLt_irrefl : ∀ cs, lexLt cs cs = false
  | [] => rfl
  | c :: cs => by simp [lexLt, lexLt_irrefl cs]

theorem lexLt_asymm : ∀ as bs, lexLt as bs = true → lexLt bs as = false := by
  intro as
  induction as with
  | nil =>
    intro bs h
    cases bs with
    | nil => simpa [lexLt] using h
    | cons b bs => simp [lexLt]
  | cons a as ih =>
    intro bs h
    cases bs with
    | nil => simp [lexLt] at h
    | cons b bs =>
      rcases Nat.lt_trichotomy a.toNat b.toNat with hab | hab | hab
      · have h1 : ¬ b.toNat < a.toNat := by omega
        simp [lexLt, h1, hab]
      · have h1 : ¬ a.toNat < b.toNat := by omega
        have h2 : ¬ b.toNat < a.toNat := by omega
        simp only [lexLt, if_neg h1, if_neg h2] at h
        simp only [lexLt, if_neg h1, if_neg h2]
        exact ih bs h
      · have h1 : ¬ a.toNat < b.toNat := by omega
        simp [lexLt, h1, hab] at h

theorem lexLt_trans : ∀ as bs cs, lexLt as bs = true → lexLt bs cs = true →
    lexLt as cs = true := by
  intro as
  induction as with
  | nil =>
    intro bs cs h1 h2
    cases cs with
    | cons c cs => simp [lexLt]
    | nil =>
      cases bs with
      | nil => simpa [lexLt] using h1
      | cons b bs => simp [lexLt] at h2
  | cons a as ih =>
    intro bs cs h1 h2
    cases bs with
    | nil => simp [lexLt] at h1
    | cons b bs =>
      cases cs with
      | nil => simp [lexLt] at h2
      | cons c cs =>
        rcases Nat.lt_trichotomy a.toNat b.toNat with hab | hab | hab
        · rcases Nat.lt_trichotomy b.toNat c.toNat with hbc | hbc | hbc
          · have hac : a.toNat < c.toNat := by omega
            simp [lexLt, hac]
          · have hac : a.toNat < c.toNat := by omega
            simp [lexLt, hac]
          · have h3 : ¬ b.toNat < c.toNat := by omega
            simp [lexLt, h3, hbc] at h2
        · rcases Nat.lt_trichotomy b.toNat c.toNat with hbc | hbc | hbc
          · have hac : a.toNat < c.toNat := by omega
            simp [lexLt, hac]
          · have hx1 : ¬ a.toNat < b.toNat := by omega
            have hx2 : ¬ b.toNat < a.toNat := by omega
            have hy1 : ¬ b.toNat < c.toNat := by omega
            have hy2 : ¬ c.toNat < b.toNat := by omega
            have hz1 : ¬ a.toNat < c.toNat := by omega
            have hz2 : ¬ c.toNat < a.toNat := by omega
            simp only [lexLt, if_neg hx1, if_neg hx2] at h1
            simp only [lexLt, if_neg hy1, if_neg hy2] at h2
            simp only [lexLt, if_neg hz1, if_neg hz2]
            exact ih bs cs h1 h2
          · have h3 : ¬ b.toNat < c.toNat := by omega
            simp [lexLt, h3, hbc] at h2
        · have h3 : ¬ a.toNat < b.toNat := by omega
          simp [lexLt, h3, hab] at h1

theorem lexLt_connex : ∀ as bs, lexLt as bs = false → lexLt bs as = false → as = bs := by
  intro as
  induction as with
  | nil =>
    intro bs h1 _
    cases bs with
    | nil => rfl
    | cons b bs => simp [lexLt] at h1
  | cons a as ih =>
    intro bs h1 h2
    cases bs with
    | nil => simp [lexLt] at h2
    | cons b bs =>
      rcases Nat.lt_trichotomy a.toNat b.toNat with hab | hab | hab
      · simp [lexLt, hab] at h1
      · have hx1 : ¬ a.toNat < b.toNat := by omega
        have hx2 : ¬ b.toNat < a.toNat := by omega
        simp only [lexLt, if_neg hx1, if_neg hx2] at h1
        simp only [lexLt, if_neg hx2, if_neg hx1] at h2
        rw [charEqOfToNat hab, ih bs h1 h2]
      · simp [lexLt, hab] at h2

theorem strLeB_iff {a b : String} : strLeB a b = true ↔ strLtB b a = false := by
  simp [strLeB]

theorem sLe_iff_lexLt {a b : String} : sLe a b ↔ lexLt b.data a.data = false := by
  simp [sLe, strLeB, strLtB]

theorem sLt_of_not_le {a b : String} (h : ¬ sLe a b) : sLt b a := by
  rcases Bool.eq_false_or_eq_true (strLtB b a) with hx | hx
  · exact hx
  · exact absurd (by simp [sLe, strLeB, hx]) h

theorem sLe_of_sLt {a b : String} (h : sLt a b) : sLe a b := by
  simp only [sLt, strLtB] at h
  simp only [sLe, strLeB, strLtB, lexLt_asymm _ _ h, Bool.not_false]

theorem sLt_ne {a b : String} (h : sLt a b) : a ≠ b := by
  intro he
  subst he
  simp only [sLt, strLtB, lexLt_irrefl] at h
  exact Bool.false_ne_true h

instance : IsTotal String sLe where
  total a b := by
    by_cases h : sLe a b
    · exact Or.inl h
    · exact Or.inr (sLe_of_sLt (sLt_of_not_le h))

instance : IsTrans String sLe where
  trans a b c hab hbc := by
    rw [sLe_iff_lexLt] at hab hbc ⊢
    rcases Bool.eq_false_or_eq_true (lexLt c.data a.data) with h | h
    · rcases Bool.eq_false_or_eq_true (lexLt b.data c.data) with h2 | h2
      · have h3 := lexLt_trans b.data c.data a.data h2 h
        rw [hab] at h3
        exact absurd h3 Bool.false_ne_true
      · have hbceq : b = c := strEqOfData (lexLt_connex b.data c.data h2 hbc)
        rw [hbceq] at hab
        rw [hab] at h
        exact absurd h Bool.false_ne_true
    · exact h

instance : IsAntisymm String sLe where
  antisymm a b hab hba := by
    rw [sLe_iff_lexLt] at hab hba
    exact strEqOfData (lexLt_connex a.data b.data hba hab)

instance : IsTrans String sLt where
  trans a b c hab hbc := lexLt_trans a.data b.data c.data hab hbc

/-- np.sort on a string array (ascending lexicographic). -/
def np_sortS (l : List String) : List String := List.insertionSort sLe l

/-- np.unique: sorted deduplicated values. -/
def npUnique (l : List String) : List String := np_sortS l.dedup

/-- str(int) for the integer-to-identifier conversion. -/
def intToStr (n : Int) : String :=
  if 0 ≤ n then toString n.toNat else "-" ++ toString (-n).toNat

/-- Result of get_indobjs_from_objids: catalogue row indices, the surviving
identifiers, and one warning per requested identifier that was dropped. -/
structure IndObjsRes where
  inds : List Int
  ids : List String
  warns : List String
deriving DecidableEq

/-- get_indobjs_from_objids (source lines 654-678): strip the catalogue
identifier column, keep the rows whose value is in the requested list
(np.in1d(...).nonzero()), warn once per requested identifier that did not
survive, and never abort. -/
def get_indobjs_from_objids (cat : List String) (objList : List String) : IndObjsRes :=
  let all := cat.map pstrip
  let idx := (List.range all.length).filter (fun i => decide (all.getD i "" ∈ objList))
  let ids := idx.map (fun i => all.getD i "")
  { inds := idx.map (fun i : Nat => (i : Int)),
    ids := ids,
    warns := (objList.filter (fun x => decide (x ∉ ids))).map
      (fun x => "obj_id " ++ x ++ " not found in fits file.") }

/-- Row lookup with numpy/pyfits semantics: indices in [0, len) read directly,
indices in [-len, 0) wrap from the end, anything else is an IndexError. -/
def lookupWrap (cat : List String) (i : Int) : Option String :=
  if 0 ≤ i ∧ i < cat.length then some (cat.getD i.toNat "")
  else if -(cat.length : Int) ≤ i ∧ i < 0 then some (cat.getD (i + cat.length).toNat "")
  else none

def lookupAll (cat : List String) : List Int → Option (List String)
  | [] => some []
  | i :: is =>
    match lookupWrap cat i, lookupAll cat is with
    | some s, some rest => some (s :: rest)
    | _, _ => none

/-- get_objids_from_indobjs (source lines 682-699) for an explicit row list:
read the identifier column at the given rows, strip, and zero-pad. -/
def get_objids_from_indobjs (cat : List String) (inds : List Int) : Option (List String) :=
  (lookupAll cat inds).map (fun l => objid_6digit (l.map pstrip))

/-- Object-identifier input forms (scalar, inline sequence of strings or of
numbers, loaded file contents, or single string / keyword). -/
inductive ObjIdIn where
  | listS (xs : List String)
  | listN (xs : List Int)
  | file (xs : List String)
  | str (s : String)
  | num (n : Int)
deriving DecidableEq

/-- Row-index input forms.  The file constructor carries the column of
integers stored in the file; np.loadtxt squeezes a one-entry file to a
scalar, which the branch does not re-wrap. -/
inductive ObjRowIn where
  | list (xs : List Int)
  | file (xs : List Int)
  | str (s : String)
  | num (n : Int)
deriving DecidableEq

/-- The tables get_obj_inds can consult: the catalogue identifier column and
the optional BLS-candidate / CANVAS identifier columns behind the two
keywords. -/
structure ObjEnv where
  cat : List String
  blsCand : Option (List String)
  canvasIds : Option (List String)
deriving DecidableEq

/-- A resolved object selection: the select-all marker (slice(None)) with the
eagerly fetched identifiers, or an explicit index/identifier pair. -/
inductive ObjSel where
  | all (ids : List String)
  | sel (inds : List Int) (ids : List String)
deriving DecidableEq

def downgradeWarn : String :=
  "indexing was set to fits but obj_rows contained 0; indexing is now set to python"

def blsMissingWarn : String := "BLS files not found or could not be loaded."

def canvasMissingWarn : String := "CANVAS files not found or could not be loaded."

/-- The obj_id half of get_obj_inds: turn the input form into a candidate
identifier list (plus warnings); none is a fatal abort (sys.exit). -/
def objIdCandidates (env : ObjEnv) : ObjIdIn → Option (List String × List String)
  | .listS xs => if xs = [] then none else some (objid_6digit xs, [])
  | .listN xs =>
    if xs = [] then none
    else if xs.all (fun x => decide (0 < x)) then
      some (objid_6digit (xs.map intToStr), [])
    else none
  | .file xs => some (objid_6digit xs, [])
  | .str s =>
    if s = "bls" then
      match env.blsCand with
      | some cand => some (npUnique (cand.map pstrip), [])
      | none => some (["bls"], [blsMissingWarn])
    else if s = "canvas" then
      match env.canvasIds with
      | some ids => some (objid_6digit ids, [])
      | none => some (["canvas"], [canvasMissingWarn])
    else some (objid_6digit [s], [])
  | .num n => if 0 ≤ n then some (objid_6digit [intToStr n], []) else none

/-- The obj_row half of get_obj_inds: apply the 1-based to 0-based shift.
Inline forms downgrade the convention (with a warning and no shift) when a
literal 0 is present.  The file form has no zero check: for a one-entry
file np.loadtxt(...).tolist() returns a bare scalar (this branch has no
scalar re-wrap), so the shift comprehension — or, under the 0-based
convention, the later np.sort of the resulting 0-d array — raises and the
call dies; a file of two or more entries is shifted unconditionally. -/
def rowIndices (indexing : String) : ObjRowIn → Option (List Int × List String)
  | .list xs =>
    if xs = [] then none
    else if indexing = "fits" then
      if 0 ∈ xs then some (xs, [downgradeWarn])
      else some (xs.map (fun x => x - 1), [])
    else some (xs, [])
  | .file xs =>
    if xs.length = 1 then none
    else if indexing = "fits" then some (xs.map (fun x => x - 1), []) else some (xs, [])
  | .str s =>
    match pyToInt s with
    | none => none
    | some n =>
      if indexing = "fits" then
        if n = 0 then some ([n], [downgradeWarn]) else some ([n - 1], [])
      else some ([n], [])
  | .num n =>
    if indexing = "fits" then
      if n = 0 then some ([n], [downgradeWarn]) else some ([n - 1], [])
    else some ([n], [])

/-- get_obj_inds (source lines 426-650): resolve the object selector.  With
no input the select-all marker is returned with all identifiers; with both
inputs the call aborts; otherwise the candidate identifiers or row indices
are cross-referenced against the catalogue and the final index and
identifier arrays are each passed through np.sort. -/
def get_obj_inds (env : ObjEnv) (obj_ids : Option ObjIdIn) (obj_rows : Option ObjRowIn)
    (indexing : String) : Option (ObjSel × List String) :=
  match obj_ids, obj_rows with
  | none, none =>
    some (.all (objid_6digit (env.cat.map pstrip)), [])
  | some oin, none =>
    match objIdCandidates env oin with
    | none => none
    | some lw =>
      let r := get_indobjs_from_objids env.cat lw.1
      some (.sel (np_sortI r.inds) (np_sortS r.ids), lw.2 ++ r.warns)
  | none, some rin =>
    match rowIndices indexing rin with
    | none => none
    | some iw =>
      match get_objids_from_indobjs env.cat iw.1 with
      | none => none
      | some ids0 => some (.sel (np_sortI iw.1) (np_sortS ids0), iw.2)
  | some _, some _ => none

end Ngtsio

namespace Ngtsio

/-!
## Supporting lemmas for the object selector
-/

theorem sLe_refl (s : String) : sLe s s := by
  simp [sLe, strLeB, strLtB, lexLt_irrefl]

theorem filterRangeMap {α : Type} (l : List α) (p : α → Bool) (d : α) :
    ((List.range l.length).filter (fun i => p (l.getD i d))).map (fun i => l.getD i d)
      = l.filter p := by
  induction l with
  | nil => rfl
  | cons a t ih =>
    have hf : ((fun i => p ((a :: t).getD i d)) ∘ Nat.succ) = fun i => p (t.getD i d) := by
      funext i
      simp [List.getD_cons_succ]
    have hg : ((fun i => (a :: t).getD i d) ∘ Nat.succ) = fun i => t.getD i d := by
      funext i
      simp [List.getD_cons_succ]
    rw [List.length_cons, List.range_succ_eq_map, List.filter_cons]
    simp only [List.getD_cons_zero]
    by_cases hpa : p a = true
    · rw [if_pos hpa, List.map_cons, List.getD_cons_zero, List.filter_map, List.map_map,
        hf, hg, ih, List.filter_cons, if_pos hpa]
    · rw [if_neg hpa, List.filter_map, List.map_map, hf, hg, ih, List.filter_cons,
        if_neg hpa]

theorem idx_pairwise_lt (n : Nat) (p : Nat → Bool) :
    List.Pairwise (· < ·) ((List.range n).filter p) :=
  (List.pairwise_lt_range n).filter p

theorem getD_map_pstrip (cat : List String) (i : Nat) :
    (cat.map pstrip).getD i "" = pstrip (cat.getD i "") :=
  List.getD_map cat "" pstrip

theorem pairwise_getD_of_sorted {l : List String} (h : List.Pairwise sLt l)
    {i j : Nat} (hj : j < l.length) (hij : i < j) :
    sLt (l.getD i "") (l.getD j "") := by
  have hi : i < l.length := lt_trans hij hj
  rw [List.getD_eq_getElem _ _ hi, List.getD_eq_getElem _ _ hj]
  exact List.pairwise_iff_getElem.mp h i j hi hj hij

/-- pad6 leaves identifiers that already have at least 6 characters alone. -/
theorem pad6_eq_self {s : String} (h : 6 ≤ s.length) : pad6 s = s := by
  simp [pad6, pad6Aux, Nat.not_lt.mpr h]

theorem lookupAll_ok {cat : List String} :
    ∀ {inds : List Int} {raw : List String}, lookupAll cat inds = some raw →
      (∀ i ∈ inds, 0 ≤ i) →
      raw = inds.map (fun i => cat.getD i.toNat "") ∧ ∀ i ∈ inds, i < (cat.length : Int) := by
  intro inds
  induction inds with
  | nil =>
    intro raw h _
    simp only [lookupAll, Option.some.injEq] at h
    subst h
    exact ⟨rfl, by simp⟩
  | cons i is ih =>
    intro raw h hnn
    simp only [lookupAll] at h
    cases hw : lookupWrap cat i with
    | none => rw [hw] at h; exact absurd h (by simp)
    | some s =>
      rw [hw] at h
      cases hrest : lookupAll cat is with
      | none => rw [hrest] at h; exact absurd h (by simp)
      | some rest =>
        rw [hrest] at h
        simp only [Option.some.injEq] at h
        have hi0 : (0 : Int) ≤ i := hnn i (by simp)
        have hcases : i < (cat.length : Int) ∧ s = cat.getD i.toNat "" := by
          simp only [lookupWrap] at hw
          by_cases hc : 0 ≤ i ∧ i < (cat.length : Int)
          · rw [if_pos hc] at hw
            simp only [Option.some.injEq] at hw
            exact ⟨hc.2, hw.symm⟩
          · rw [if_neg hc] at hw
            by_cases hc2 : -(cat.length : Int) ≤ i ∧ i < 0
            · exact absurd hc2.2 (by omega)
            · rw [if_neg hc2] at hw
              exact absurd hw (by simp)
        obtain ⟨hrs, hbd⟩ := ih hrest (fun j hj => hnn j (by simp [hj]))
        refine ⟨?_, ?_⟩
        · rw [← h, List.map_cons, ← hrs, hcases.2]
        · intro j hj
          rcases List.mem_cons.mp hj with hj | hj
          · subst hj
            exact hcases.1
          · exact hbd j hj

theorem get_objids_ok {cat : List String} {inds : List Int} {ids0 : List String}
    (h : get_objids_from_indobjs cat inds = some ids0)
    (hnn : ∀ i ∈ inds, 0 ≤ i) :
    ids0 = inds.map (fun i => pad6 (pstrip (cat.getD i.toNat ""))) ∧
      ∀ i ∈ inds, i < (cat.length : Int) := by
  simp only [get_objids_from_indobjs] at h
  cases hl : lookupAll cat inds with
  | none => rw [hl] at h; exact absurd h (by simp)
  | some raw =>
    rw [hl] at h
    simp only [Option.map_some', Option.some.injEq] at h
    obtain ⟨hraw, hbd⟩ := lookupAll_ok hl hnn
    refine ⟨?_, hbd⟩
    rw [← h, hraw]
    show ((inds.map fun i => cat.getD i.toNat "").map pstrip).map pad6 = _
    rw [List.map_map, List.map_map]
    rfl

/-- np.sort commutes with a map that is monotone on the members. -/
theorem sortS_map_comm (xs : List Int) (g : Int → String)
    (hmono : ∀ a b, a ∈ xs → b ∈ xs → a ≤ b → sLe (g a) (g b)) :
    np_sortS (xs.map g) = (np_sortI xs).map g := by
  have hperm : (np_sortS (xs.map g)).Perm ((np_sortI xs).map g) :=
    (List.perm_insertionSort sLe (xs.map g)).trans
      ((List.perm_insertionSort (· ≤ ·) xs).map g).symm
  have hs1 : List.Sorted sLe (np_sortS (xs.map g)) :=
    List.sorted_insertionSort sLe (xs.map g)
  have hs2 : List.Sorted sLe ((np_sortI xs).map g) := by
    refine List.pairwise_map.mpr ?_
    have hsorted : List.Pairwise (· ≤ ·) (np_sortI xs) :=
      List.sorted_insertionSort (· ≤ ·) xs
    refine List.Pairwise.imp_of_mem ?_ hsorted
    intro a b ha hb hr
    have hma : a ∈ xs := (List.perm_insertionSort (· ≤ ·) xs).mem_iff.mp ha
    have hmb : b ∈ xs := (List.perm_insertionSort (· ≤ ·) xs).mem_iff.mp hb
    exact hmono a b hma hmb hr
  exact List.eq_of_perm_of_sorted hperm hs1 hs2

end Ngtsio

namespace Ngtsio

theorem np_sortI_sorted_eq {l : List Int} (h : List.Pairwise (· ≤ ·) l) : np_sortI l = l :=
  List.Sorted.insertionSort_eq h

theorem np_sortS_sorted_eq {l : List String} (h : List.Pairwise sLe l) : np_sortS l = l :=
  List.Sorted.insertionSort_eq h

/-- Structure of the result of get_indobjs_from_objids over a catalogue whose
stripped identifier column is strictly sorted: indices strictly ascending,
identifiers strictly ascending, and the two paired through the catalogue. -/
theorem indobjs_sorted (cat L : List String)
    (hsorted : List.Pairwise sLt (cat.map pstrip)) :
    List.Pairwise (· < ·) (get_indobjs_from_objids cat L).inds ∧
    List.Pairwise sLt (get_indobjs_from_objids cat L).ids ∧
    (get_indobjs_from_objids cat L).ids =
      (get_indobjs_from_objids cat L).inds.map (fun i => pstrip (cat.getD i.toNat "")) ∧
    (get_indobjs_from_objids cat L).inds.length = (get_indobjs_from_objids cat L).ids.length := by
  have hpidx : List.Pairwise (· < ·)
      ((List.range (cat.map pstrip).length).filter
        (fun i => decide ((cat.map pstrip).getD i "" ∈ L))) :=
    idx_pairwise_lt _ _
  refine ⟨?_, ?_, ?_, ?_⟩
  · refine List.pairwise_map.mpr ?_
    exact hpidx.imp (fun hab => by exact_mod_cast hab)
  · refine List.pairwise_map.mpr ?_
    refine List.Pairwise.imp_of_mem ?_ hpidx
    intro a b ha hb hab
    have hb2 : b < (cat.map pstrip).length :=
      List.mem_range.mp (List.mem_filter.mp hb).1
    exact pairwise_getD_of_sorted hsorted hb2 hab
  · show _ = List.map _ (List.map _ _)
    rw [List.map_map]
    refine List.map_congr_left ?_
    intro i _
    show (cat.map pstrip).getD i "" = pstrip (cat.getD ((i : Int)).toNat "")
    rw [Int.toNat_natCast, getD_map_pstrip]
  · simp [get_indobjs_from_objids]

theorem ids_branch_eq {env : ObjEnv} {o : ObjIdIn} {indexing : String}
    {inds : List Int} {ids : List String} {w : List String}
    (hres : get_obj_inds env (some o) none indexing = some (.sel inds ids, w)) :
    ∃ L w0, objIdCandidates env o = some (L, w0) ∧
      inds = np_sortI (get_indobjs_from_objids env.cat L).inds ∧
      ids = np_sortS (get_indobjs_from_objids env.cat L).ids := by
  cases hc : objIdCandidates env o with
  | none => rw [get_obj_inds, hc] at hres; exact absurd hres (by simp)
  | some lw =>
    rw [get_obj_inds, hc] at hres
    simp only [Option.some.injEq, Prod.mk.injEq, ObjSel.sel.injEq] at hres
    exact ⟨lw.1, lw.2, rfl, hres.1.1.symm, hres.1.2.symm⟩

theorem rows_branch_eq {env : ObjEnv} {r : ObjRowIn} {indexing : String}
    {inds : List Int} {ids : List String} {w : List String}
    (hres : get_obj_inds env none (some r) indexing = some (.sel inds ids, w)) :
    ∃ iw ids0, rowIndices indexing r = some iw ∧
      get_objids_from_indobjs env.cat iw.1 = some ids0 ∧
      inds = np_sortI iw.1 ∧ ids = np_sortS ids0 ∧ w = iw.2 := by
  cases hw : rowIndices indexing r with
  | none => rw [get_obj_inds, hw] at hres; exact absurd hres (by simp)
  | some iw =>
    simp only [get_obj_inds, hw] at hres
    cases hg : get_objids_from_indobjs env.cat iw.1 with
    | none => rw [hg] at hres; exact absurd hres (by simp)
    | some ids0 =>
      rw [hg] at hres
      simp only [Option.some.injEq, Prod.mk.injEq, ObjSel.sel.injEq] at hres
      exact ⟨iw, ids0, rfl, hg, hres.1.1.symm, hres.1.2.symm, hres.2.symm⟩

end Ngtsio

namespace Ngtsio

/-- C8: every requested identifier absent from the catalogue (after
whitespace trimming) is dropped with one non-fatal diagnostic per missing
identifier; the resolved pair covers exactly the requested identifiers
present in the catalogue, and the resolution is total (no exception). -/
theorem get_indobjs_missing_dropped (cat objList : List String) :
    (get_indobjs_from_objids cat objList).ids
        = (cat.map pstrip).filter (fun x => decide (x ∈ objList)) ∧
    (get_indobjs_from_objids cat objList).inds.length
        = (get_indobjs_from_objids cat objList).ids.length ∧
    (∀ x ∈ objList, (x ∈ (get_indobjs_from_objids cat objList).ids ↔ x ∈ cat.map pstrip)) ∧
    (∀ x ∈ objList, x ∉ (get_indobjs_from_objids cat objList).ids →
      ("obj_id " ++ x ++ " not found in fits file.")
        ∈ (get_indobjs_from_objids cat objList).warns) ∧
    (get_indobjs_from_objids cat objList).warns.length =
      (objList.filter
        (fun x => decide (x ∉ (get_indobjs_from_objids cat objList).ids))).length := by
  have h1 : (get_indobjs_from_objids cat objList).ids
      = (cat.map pstrip).filter (fun x => decide (x ∈ objList)) :=
    filterRangeMap (cat.map pstrip) (fun x => decide (x ∈ objList)) ""
  refine ⟨h1, by simp [get_indobjs_from_objids], ?_, ?_, ?_⟩
  · intro x hx
    rw [h1]
    simp [List.mem_filter, hx]
  · intro x hx hnot
    refine List.mem_map.mpr ⟨x, List.mem_filter.mpr ⟨hx, decide_eq_true hnot⟩, rfl⟩
  · exact List.length_map _ _

/-- Witness for get_indobjs_missing_dropped at the concrete spec example of
requesting the absent identifier 999999. -/
theorem get_indobjs_missing_dropped_witness :
    (get_indobjs_from_objids ["000046", "001337"] ["000046", "999999"]).ids = ["000046"] ∧
    ("obj_id 999999 not found in fits file.")
      ∈ (get_indobjs_from_objids ["000046", "001337"] ["000046", "999999"]).warns := by
  refine ⟨by decide, ?_⟩
  exact (get_indobjs_missing_dropped ["000046", "001337"] ["000046", "999999"]).2.2.2.1
    "999999" (by decide) (by decide)

/-- C1 counterexample, two parts.  First, a duplicated row-index selection
survives resolution with the duplicate intact — the final index/identifier
pair is sorted but not deduplicated, contrary to the claim.  Second, a
row-index selection holding the negative index -1 (accepted under the
0-based convention and wrapped by numpy to the last catalogue row) breaks
the claimed pairing: the indices sort to [-1, 0] while the identifiers sort
to their own order, so the kth index no longer reads the kth identifier's
catalogue row. -/
theorem obj_row_duplicates_kept :
    (get_obj_inds ⟨["000001", "000002", "000003"], none, none⟩ none
        (some (.list [2, 2])) "python" = some (.sel [2, 2] ["000003", "000003"], []) ∧
      ¬ ([(2 : Int), 2].Nodup)) ∧
    (get_obj_inds ⟨["000001", "000002", "000003"], none, none⟩ none
        (some (.list [-1, 0])) "python" = some (.sel [-1, 0] ["000001", "000003"], []) ∧
      ["000001", "000003"] ≠ [(-1 : Int), 0].map
        (fun i => pstrip ((["000001", "000002", "000003"] : List String).getD i.toNat ""))) := by
  exact ⟨⟨by decide, by decide⟩, by decide, by decide⟩

/-- C1 (amended): over a catalogue whose stripped identifier column is
strictly sorted and holds full-width (6 character or longer) codes, every
explicit selection resolved by get_obj_inds whose resolved indices are all
non-negative has index and identifier sequences of equal length, both
sorted ascending and paired through the catalogue rows; for identifier-form
inputs both are also deduplicated (strictly sorted), while row-index inputs
may keep duplicates.  The non-negativity premise is necessary: a negative
resolved row index wraps to the end of the catalogue, and the two
independent sorts then misalign the pairs (see the counterexample). -/
theorem get_obj_inds_sorted_paired
    (env : ObjEnv) (oin : Option ObjIdIn) (rin : Option ObjRowIn) (indexing : String)
    (inds : List Int) (ids : List String) (w : List String)
    (hres : get_obj_inds env oin rin indexing = some (.sel inds ids, w))
    (hsorted : List.Pairwise sLt (env.cat.map pstrip))
    (hlen6 : ∀ s ∈ env.cat, 6 ≤ (pstrip s).length)
    (hnn : ∀ i ∈ inds, 0 ≤ i) :
    inds.length = ids.length ∧
    List.Pairwise (· ≤ ·) inds ∧
    List.Pairwise sLe ids ∧
    ids = inds.map (fun i => pstrip (env.cat.getD i.toNat "")) ∧
    (oin.isSome = true → List.Pairwise (· < ·) inds ∧ List.Pairwise sLt ids) := by
  match oin, rin with
  | none, none =>
    rw [get_obj_inds] at hres
    exact absurd hres (by simp)
  | some _, some _ =>
    rw [get_obj_inds] at hres
    exact absurd hres (by simp)
  | some o, none =>
    obtain ⟨L, w0, hc, hinds, hids⟩ := ids_branch_eq hres
    obtain ⟨hp1, hp2, hpair, hlens⟩ := indobjs_sorted env.cat L hsorted
    have hinds2 : inds = (get_indobjs_from_objids env.cat L).inds := by
      rw [hinds]
      exact np_sortI_sorted_eq (hp1.imp (fun h => le_of_lt h))
    have hids2 : ids = (get_indobjs_from_objids env.cat L).ids := by
      rw [hids]
      exact np_sortS_sorted_eq (hp2.imp (fun h => sLe_of_sLt h))
    refine ⟨?_, ?_, ?_, ?_, ?_⟩
    · rw [hinds2, hids2]
      exact hlens
    · rw [hinds2]
      exact hp1.imp (fun h => le_of_lt h)
    · rw [hids2]
      exact hp2.imp (fun h => sLe_of_sLt h)
    · rw [hinds2, hids2]
      exact hpair
    · intro _
      rw [hinds2, hids2]
      exact ⟨hp1, hp2⟩
  | none, some r =>
    obtain ⟨iw, ids0, hw, hg, hinds, hids, hww⟩ := rows_branch_eq hres
    have hmem : ∀ i : Int, i ∈ iw.1 ↔ i ∈ inds := by
      intro i
      rw [hinds]
      exact ((List.perm_insertionSort (· ≤ ·) iw.1).mem_iff).symm
    have hnn0 : ∀ i ∈ iw.1, (0 : Int) ≤ i := fun i hi => hnn i ((hmem i).mp hi)
    obtain ⟨hids0, hbd⟩ := get_objids_ok hg hnn0
    have hg6 : ∀ i ∈ iw.1, pad6 (pstrip (env.cat.getD i.toNat ""))
        = pstrip (env.cat.getD i.toNat "") := by
      intro i hi
      apply pad6_eq_self
      apply hlen6
      have hib : i.toNat < env.cat.length := by
        have h1 := hbd i hi
        have h2 := hnn0 i hi
        omega
      rw [List.getD_eq_getElem _ _ hib]
      exact List.getElem_mem hib
    have hids0F : ids0 = iw.1.map (fun i => pstrip (env.cat.getD i.toNat "")) := by
      rw [hids0]
      exact List.map_congr_left hg6
    have hmono : ∀ a b, a ∈ iw.1 → b ∈ iw.1 → a ≤ b →
        sLe (pstrip (env.cat.getD a.toNat "")) (pstrip (env.cat.getD b.toNat "")) := by
      intro a b ha hb hab
      rcases eq_or_lt_of_le hab with heq | hlt
      · rw [heq]
        exact sLe_refl _
      · have ha0 := hnn0 a ha
        have hbb := hbd b hb
        have h1 : a.toNat < b.toNat := by omega
        have h2 : b.toNat < (env.cat.map pstrip).length := by
          rw [List.length_map]
          have := hnn0 b hb
          omega
        have h3 := pairwise_getD_of_sorted hsorted h2 h1
        rw [getD_map_pstrip, getD_map_pstrip] at h3
        exact sLe_of_sLt h3
    have hpairing : ids = inds.map (fun i => pstrip (env.cat.getD i.toNat "")) := by
      rw [hids, hids0F, sortS_map_comm iw.1 _ hmono, hinds]
    refine ⟨?_, ?_, ?_, hpairing, ?_⟩
    · rw [hpairing, List.length_map]
    · rw [hinds]
      exact List.sorted_insertionSort (· ≤ ·) iw.1
    · rw [hids]
      exact List.sorted_insertionSort sLe ids0
    · intro h
      exact absurd h (by simp)

/-- Witness for get_obj_inds_sorted_paired at a concrete identifier-list
selection. -/
theorem get_obj_inds_sorted_paired_witness :
    get_obj_inds ⟨["000001", "000002"], none, none⟩
        (some (.listS ["000002", "000001"])) none "fits"
      = some (.sel [0, 1] ["000001", "000002"], []) ∧
    (([(0 : Int), 1].length = (["000001", "000002"] : List String).length) ∧
      List.Pairwise (· ≤ ·) [(0 : Int), 1] ∧
      List.Pairwise sLe ["000001", "000002"] ∧
      ["000001", "000002"] = [(0 : Int), 1].map
        (fun i => pstrip ((["000001", "000002"] : List String).getD i.toNat "")) ∧
      ((some (ObjIdIn.listS ["000002", "000001"])).isSome = true →
        List.Pairwise (· < ·) [(0 : Int), 1] ∧
        List.Pairwise sLt ["000001", "000002"])) := by
  refine ⟨by decide, ?_⟩
  exact get_obj_inds_sorted_paired ⟨["000001", "000002"], none, none⟩
    (some (.listS ["000002", "000001"])) none "fits" [0, 1] ["000001", "000002"] []
    (by decide) (by decide) (by decide) (by decide)

end Ngtsio

namespace Ngtsio

/-- C7 counterexample: a two-entry file of row indices containing a literal
0 under the 1-based convention is shifted by -1 with no downgrade and no
warning — not downgraded to 0-based as claimed; the resulting index -1
wraps to the last catalogue row. -/
theorem obj_row_file_zero_shifted :
    get_obj_inds ⟨["000001", "000002", "000003"], none, none⟩ none
      (some (.file [0, 2])) "fits" = some (.sel [-1, 1] ["000002", "000003"], []) ∧
    get_obj_inds ⟨["000001", "000002", "000003"], none, none⟩ none
        (some (.file [0, 2])) "fits"
      ≠ some (.sel [0, 2] ["000001", "000003"], [downgradeWarn]) := by
  exact ⟨by decide, by decide⟩

/-- C7 (amended): under the 1-based convention, the inline input forms
(sequence, scalar, numeric string) downgrade to 0-based with a warning and no
shift when a literal 0 is present and otherwise shift every index by -1.
The file-of-indices form never downgrades or warns: a one-entry index file
dies (np.loadtxt squeezes it to a scalar that this branch does not re-wrap,
so the shift or the later sort raises), and a file of two or more entries
is always shifted by -1, even when a 0 is present. -/
theorem obj_row_indexing_spec (env : ObjEnv) :
    (∀ xs inds ids w, 0 ∈ xs →
      get_obj_inds env none (some (.list xs)) "fits" = some (.sel inds ids, w) →
      inds = np_sortI xs ∧ w = [downgradeWarn]) ∧
    (∀ xs inds ids w, 0 ∉ xs → xs ≠ [] →
      get_obj_inds env none (some (.list xs)) "fits" = some (.sel inds ids, w) →
      inds = np_sortI (xs.map (fun x => x - 1)) ∧ w = []) ∧
    (∀ n inds ids w, n ≠ (0 : Int) →
      get_obj_inds env none (some (.num n)) "fits" = some (.sel inds ids, w) →
      inds = np_sortI [n - 1] ∧ w = []) ∧
    (∀ inds ids w,
      get_obj_inds env none (some (.num 0)) "fits" = some (.sel inds ids, w) →
      inds = [0] ∧ w = [downgradeWarn]) ∧
    (∀ s n inds ids w, pyToInt s = some n → n ≠ 0 →
      get_obj_inds env none (some (.str s)) "fits" = some (.sel inds ids, w) →
      inds = np_sortI [n - 1] ∧ w = []) ∧
    (∀ xs inds ids w, xs.length ≠ 1 →
      get_obj_inds env none (some (.file xs)) "fits" = some (.sel inds ids, w) →
      inds = np_sortI (xs.map (fun x => x - 1)) ∧ w = []) ∧
    (∀ xs ind, xs.length = 1 →
      get_obj_inds env none (some (.file xs)) ind = none) := by
  refine ⟨?_, ?_, ?_, ?_, ?_, ?_, ?_⟩
  · intro xs inds ids w h0 hres
    obtain ⟨iw, ids0, hw, _, hinds, _, hww⟩ := rows_branch_eq hres
    have hne : xs ≠ [] := List.ne_nil_of_mem h0
    rw [rowIndices, if_neg hne, if_pos rfl, if_pos h0] at hw
    simp only [Option.some.injEq] at hw
    rw [← hw] at hinds hww
    exact ⟨hinds, hww⟩
  · intro xs inds ids w h0 hne hres
    obtain ⟨iw, ids0, hw, _, hinds, _, hww⟩ := rows_branch_eq hres
    rw [rowIndices, if_neg hne, if_pos rfl, if_neg h0] at hw
    simp only [Option.some.injEq] at hw
    rw [← hw] at hinds hww
    exact ⟨hinds, hww⟩
  · intro n inds ids w hn hres
    obtain ⟨iw, ids0, hw, _, hinds, _, hww⟩ := rows_branch_eq hres
    rw [rowIndices, if_pos rfl, if_neg hn] at hw
    simp only [Option.some.injEq] at hw
    rw [← hw] at hinds hww
    exact ⟨hinds, hww⟩
  · intro inds ids w hres
    obtain ⟨iw, ids0, hw, _, hinds, _, hww⟩ := rows_branch_eq hres
    rw [rowIndices, if_pos rfl, if_pos rfl] at hw
    simp only [Option.some.injEq] at hw
    rw [← hw] at hinds hww
    exact ⟨hinds, hww⟩
  · intro s n inds ids w hp hn hres
    obtain ⟨iw, ids0, hw, _, hinds, _, hww⟩ := rows_branch_eq hres
    simp only [rowIndices, hp] at hw
    rw [if_pos trivial, if_neg hn] at hw
    simp only [Option.some.injEq] at hw
    rw [← hw] at hinds hww
    exact ⟨hinds, hww⟩
  · intro xs inds ids w hx1 hres
    obtain ⟨iw, ids0, hw, _, hinds, _, hww⟩ := rows_branch_eq hres
    rw [rowIndices, if_neg hx1, if_pos rfl] at hw
    simp only [Option.some.injEq] at hw
    rw [← hw] at hinds hww
    exact ⟨hinds, hww⟩
  · intro xs ind h1
    have hw : rowIndices ind (ObjRowIn.file xs) = none := by
      rw [rowIndices, if_pos h1]
    rw [get_obj_inds, hw]

/-- Witness for obj_row_indexing_spec: a shifted inline list and an
unshifted zero-containing inline list, at concrete inputs. -/
theorem obj_row_indexing_spec_witness :
    get_obj_inds ⟨["000001", "000002"], none, none⟩ none
      (some (.list [2, 1])) "fits" = some (.sel [0, 1] ["000001", "000002"], []) ∧
    ([(0 : Int), 1] = np_sortI ([2, 1].map (fun x => x - 1)) ∧ ([] : List String) = []) := by
  refine ⟨by decide, ?_⟩
  exact (obj_row_indexing_spec ⟨["000001", "000002"], none, none⟩).2.1 [2, 1] [0, 1]
    ["000001", "000002"] [] (by decide) (by decide) (by decide)

end Ngtsio

namespace Ngtsio

/-!
## The result dictionary and its entries

A ResultSet value is a numpy array: 1-D or 2-D, of numbers or of strings,
or a scalar once dimensional simplification has collapsed it.
-/

inductive Entry where
  | sArr (xs : List String)
  | sStr (s : String)
  | arr1 (xs : List Val)
  | arr2 (m : List (List Val))
  | sca (v : Val)
deriving DecidableEq

/-- A Python dict as an association list keyed by field name. -/
abbrev Dic := List (String × Entry)

def dicGet (d : Dic) (k : String) : Option Entry :=
  (d.find? (fun p => p.1 == k)).map Prod.snd

def dicMem (d : Dic) (k : String) : Bool := (dicGet d k).isSome

/-- dict assignment: overwrite in place if present, else append. -/
def dicSet (d : Dic) (k : String) (v : Entry) : Dic :=
  if dicMem d k then d.map (fun p => if p.1 == k then (k, v) else p) else d ++ [(k, v)]

/-- del dic[k]. -/
def dicDel (d : Dic) (k : String) : Dic := d.filter (fun p => !(p.1 == k))

def dicSetMany (d : Dic) (ws : List (String × Entry)) : Dic :=
  ws.foldl (fun d kv => dicSet d kv.1 kv.2) d

/-!
## set_nan_dic and helpers (source lines 1712-1759)
-/

/-- The fixed list of measurement fields invalidated by quality flags; the
time field HJD is deliberately not in this list. -/
def nanKeys : List String :=
  ["FLUX", "FLUX_ERR", "FLUX3", "FLUX3_ERR",
   "FLUX4", "FLUX4_ERR", "FLUX5", "FLUX5_ERR",
   "SYSREM_FLUX3", "SYSREM_FLUX3_ERR",
   "DECORR_FLUX3", "DECORR_FLUX3_ERR",
   "CCDX", "CCDX_ERR", "CCDY", "CCDY_ERR",
   "CENTDX", "CENTDX_ERR", "CENTDY", "CENTDY_ERR"]

/-- One row of the invalidation: positions whose flag is > 0 become NaN. -/
def flagMaskRow (frow row : List Val) : List Val :=
  List.zipWith (fun f v => if valGt0 f then Val.nan else v) frow row

/-- The whole 2-D invalidation.  Both set_nan_single (a single np.where over
the full 2-D FLAGS array) and set_nan_multi (a loop masking one object row at
a time) assign NaN at exactly the positions where FLAGS > 0, which is this
positionwise map. -/
def flagMask (flags m : List (List Val)) : List (List Val) :=
  List.zipWith flagMaskRow flags m

/-- numpy would raise an IndexError when a flagged position falls outside a
target array; the model requires the shapes to agree exactly (which is how
these arrays are produced) and aborts otherwise. -/
def sameShape (a b : List (List Val)) : Bool :=
  a.length == b.length && (a.zip b).all (fun p => p.1.length == p.2.length)

def nanShapeOK (flags : List (List Val)) (d : Dic) : Bool :=
  nanKeys.all (fun k =>
    match dicGet d k with
    | some (.arr2 m) => sameShape flags m
    | some _ => false
    | none => true)

/-- Overwrite every present nanKeys entry with its flag-masked version. -/
def set_nan_apply (flags : List (List Val)) (d : Dic) : Option Dic :=
  if nanShapeOK flags d then
    some (d.map (fun p =>
      if p.1 ∈ nanKeys then
        match p.2 with
        | .arr2 m => (p.1, Entry.arr2 (flagMask flags m))
        | e => (p.1, e)
      else p))
  else none

/-- set_nan_single: np.where(dic['FLAGS'] > 0) over the whole 2-D array,
then NaN-assignment into each present measurement field.  A missing FLAGS
entry is an uncaught KeyError. -/
def set_nan_single (d : Dic) : Option Dic :=
  match dicGet d "FLAGS" with
  | some (.arr2 flags) => set_nan_apply flags d
  | _ => none

/-- set_nan_multi: the same invalidation, object row by object row. -/
def set_nan_multi (d : Dic) : Option Dic :=
  match dicGet d "FLAGS" with
  | some (.arr2 flags) => set_nan_apply flags d
  | _ => none

/-- set_nan_dic: dispatch on len(dic['OBJ_ID']). -/
def set_nan_dic (d : Dic) : Option Dic :=
  match dicGet d "OBJ_ID" with
  | some (.sArr objids) =>
    if objids.length == 1 then set_nan_single d
    else if 1 < objids.length then set_nan_multi d
    else some d
  | _ => none

/-!
## simplify_dic (source lines 1697-1705)
-/

/-- One field of the dimensional simplification: drop a leading length-1 axis;
otherwise, for 2-D values only, drop a trailing length-1 axis.  Scalars do
not occur before simplification, so the last arms are unreachable. -/
def simplifyEntry : Entry → Entry
  | .sArr xs => if xs.length == 1 then .sStr (xs.headD "") else .sArr xs
  | .arr1 xs => if xs.length == 1 then .sca (xs.headD (.num 0)) else .arr1 xs
  | .arr2 m =>
    if m.length == 1 then .arr1 (m.headD [])
    else if (m.headD []).length == 1 then .arr1 (m.map (fun r => r.headD (.num 0)))
    else .arr2 m
  | e => e

/-- simplify_dic: applied independently per field. -/
def simplify_dic (d : Dic) : Dic :=
  d.map (fun p => (p.1, simplifyEntry p.2))

end Ngtsio

namespace Ngtsio

theorem dicGet_map (d : Dic) (F : String × Entry → String × Entry)
    (hF : ∀ p, (F p).1 = p.1) (k : String) :
    dicGet (d.map F) k = ((d.find? (fun p => p.1 == k)).map F).map Prod.snd := by
  simp only [dicGet]
  rw [List.find?_map]
  have hpred : ((fun p : String × Entry => p.1 == k) ∘ F) = fun p => p.1 == k := by
    funext p
    simp [Function.comp, hF p]
  rw [hpred]

/-- The updater applied per dictionary entry by set_nan_apply. -/
def nanUpd (flags : List (List Val)) (p : String × Entry) : String × Entry :=
  if p.1 ∈ nanKeys then
    match p.2 with
    | Entry.arr2 m => (p.1, Entry.arr2 (flagMask flags m))
    | e => (p.1, e)
  else p

theorem nanUpd_key (flags : List (List Val)) (p : String × Entry) :
    (nanUpd flags p).1 = p.1 := by
  rw [nanUpd]
  by_cases hp : p.1 ∈ nanKeys
  · rw [if_pos hp]
    cases p.2 <;> rfl
  · rw [if_neg hp]

theorem set_nan_apply_eq {flags : List (List Val)} {d d2 : Dic}
    (h : set_nan_apply flags d = some d2) : d2 = d.map (nanUpd flags) := by
  simp only [set_nan_apply] at h
  by_cases hok : nanShapeOK flags d = true
  · rw [if_pos hok] at h
    simp only [Option.some.injEq] at h
    rw [← h]
    rfl
  · rw [if_neg hok] at h
    exact absurd h (by simp)

theorem dicGet_set_nan_apply_mem {flags : List (List Val)} {d d2 : Dic}
    (h : set_nan_apply flags d = some d2) {k : String} {m : List (List Val)}
    (hk : k ∈ nanKeys) (hget : dicGet d k = some (.arr2 m)) :
    dicGet d2 k = some (.arr2 (flagMask flags m)) := by
  rw [set_nan_apply_eq h, dicGet_map d (nanUpd flags) (nanUpd_key flags) k]
  simp only [dicGet] at hget
  cases hfind : d.find? (fun p => p.1 == k) with
  | none => rw [hfind] at hget; exact absurd hget (by simp)
  | some p =>
    rw [hfind] at hget
    simp only [Option.map_some', Option.some.injEq] at hget
    have hbeq := List.find?_some hfind
    have hkey : p.1 = k := eq_of_beq hbeq
    simp only [Option.map_some']
    rw [nanUpd, hkey, if_pos hk, hget]

theorem dicGet_set_nan_apply_notmem {flags : List (List Val)} {d d2 : Dic}
    (h : set_nan_apply flags d = some d2) {k : String} (hk : k ∉ nanKeys) :
    dicGet d2 k = dicGet d k := by
  rw [set_nan_apply_eq h, dicGet_map d (nanUpd flags) (nanUpd_key flags) k]
  simp only [dicGet]
  cases hfind : d.find? (fun p => p.1 == k) with
  | none => rfl
  | some p =>
    have hbeq := List.find?_some hfind
    have hkey : p.1 = k := eq_of_beq hbeq
    simp only [Option.map_some']
    rw [nanUpd, hkey, if_neg hk]

theorem flagMask_getD (fl m : List (List Val)) (i j : Nat)
    (him : i < m.length) (hifl : i < fl.length)
    (hjm : j < (m.getD i []).length) (hjf : j < (fl.getD i []).length) :
    ((flagMask fl m).getD i []).getD j (Val.num 0)
      = if valGt0 ((fl.getD i []).getD j (Val.num 0)) then Val.nan
        else (m.getD i []).getD j (Val.num 0) := by
  have hlen : i < (flagMask fl m).length := by
    simp only [flagMask, List.length_zipWith]
    omega
  have e1 : fl.getD i [] = fl[i] := List.getD_eq_getElem _ _ hifl
  have e2 : m.getD i [] = m[i] := List.getD_eq_getElem _ _ him
  rw [e1] at hjf
  rw [e2] at hjm
  rw [e1, e2]
  have h1 : (flagMask fl m).getD i [] = flagMaskRow fl[i] m[i] := by
    rw [List.getD_eq_getElem _ _ hlen]
    simp [flagMask, List.getElem_zipWith]
  rw [h1]
  have hjlen : j < (flagMaskRow fl[i] m[i]).length := by
    simp only [flagMaskRow, List.length_zipWith]
    omega
  rw [List.getD_eq_getElem _ _ hjlen, List.getD_eq_getElem _ _ hjf, List.getD_eq_getElem _ _ hjm]
  simp [flagMaskRow, List.getElem_zipWith]

/-- C4 counterexample: a nonzero but negative quality flag does not
invalidate the measurement — the code tests FLAGS > 0, not FLAGS != 0, so
the flux value stays 5 at a position whose flag is the nonzero value -1. -/
theorem set_nan_negative_flag_untouched :
    set_nan_dic [("OBJ_ID", .sArr ["000001"]), ("FLAGS", .arr2 [[.num (-1)]]),
        ("FLUX", .arr2 [[.num 5]])]
      = some [("OBJ_ID", .sArr ["000001"]), ("FLAGS", .arr2 [[.num (-1)]]),
        ("FLUX", .arr2 [[.num 5]])] ∧
    Val.num (-1) ≠ Val.num 0 ∧ Val.num 5 ≠ Val.nan := by
  exact ⟨by decide, by decide, by decide⟩

/-- C4 (amended): for every result dictionary with a FLAGS field, flag-driven
invalidation overwrites, in every present field of the fixed measurement
list, exactly the positions whose quality flag is strictly positive with NaN
— per object when more than one object is present and globally when exactly
one is — while every field outside the list, in particular the time/HJD
field, is left unchanged at every position. -/
theorem set_nan_positive_flags_spec
    (d d2 : Dic) (objids : List String) (flags : List (List Val))
    (hobj : dicGet d "OBJ_ID" = some (.sArr objids))
    (hfl : dicGet d "FLAGS" = some (.arr2 flags))
    (hn : 1 ≤ objids.length)
    (hres : set_nan_dic d = some d2) :
    (∀ k m, k ∈ nanKeys → dicGet d k = some (.arr2 m) →
      dicGet d2 k = some (.arr2 (flagMask flags m))) ∧
    (∀ k, k ∉ nanKeys → dicGet d2 k = dicGet d k) ∧
    dicGet d2 "HJD" = dicGet d "HJD" ∧
    (∀ (fl mm : List (List Val)) (i j : Nat),
      i < mm.length → i < fl.length →
      j < (mm.getD i []).length → j < (fl.getD i []).length →
      ((flagMask fl mm).getD i []).getD j (Val.num 0)
        = if valGt0 ((fl.getD i []).getD j (Val.num 0)) then Val.nan
          else (mm.getD i []).getD j (Val.num 0)) := by
  have happ : set_nan_apply flags d = some d2 := by
    simp only [set_nan_dic, hobj] at hres
    by_cases h1 : (objids.length == 1) = true
    · rw [if_pos h1] at hres
      simp only [set_nan_single, hfl] at hres
      exact hres
    · rw [if_neg h1] at hres
      have h2 : 1 < objids.length := by
        simp only [beq_iff_eq] at h1
        omega
      rw [if_pos h2] at hres
      simp only [set_nan_multi, hfl] at hres
      exact hres
  refine ⟨?_, ?_, ?_, ?_⟩
  · intro k m hk hget
    exact dicGet_set_nan_apply_mem happ hk hget
  · intro k hk
    exact dicGet_set_nan_apply_notmem happ hk
  · exact dicGet_set_nan_apply_notmem happ (by decide)
  · intro fl mm i j h1 h2 h3 h4
    exact flagMask_getD fl mm i j h1 h2 h3 h4

/-- Witness for set_nan_positive_flags_spec at the spec's concrete example:
flags [0,1,0,1] against flux [1,2,3,4] yields [1,NaN,3,NaN] with HJD
untouched. -/
theorem set_nan_positive_flags_spec_witness :
    set_nan_dic [("OBJ_ID", .sArr ["000001"]),
        ("FLAGS", .arr2 [[.num 0, .num 1, .num 0, .num 1]]),
        ("FLUX", .arr2 [[.num 1, .num 2, .num 3, .num 4]]),
        ("HJD", .arr2 [[.num 7, .num 8, .num 9, .num 10]])]
      = some [("OBJ_ID", .sArr ["000001"]),
        ("FLAGS", .arr2 [[.num 0, .num 1, .num 0, .num 1]]),
        ("FLUX", .arr2 [[.num 1, Val.nan, .num 3, Val.nan]]),
        ("HJD", .arr2 [[.num 7, .num 8, .num 9, .num 10]])] ∧
    dicGet [("OBJ_ID", Entry.sArr ["000001"]),
        ("FLAGS", Entry.arr2 [[.num 0, .num 1, .num 0, .num 1]]),
        ("FLUX", Entry.arr2 [[.num 1, Val.nan, .num 3, Val.nan]]),
        ("HJD", Entry.arr2 [[.num 7, .num 8, .num 9, .num 10]])]
      "HJD" = some (.arr2 [[.num 7, .num 8, .num 9, .num 10]]) := by
  constructor
  · decide
  · have h := set_nan_positive_flags_spec
      [("OBJ_ID", .sArr ["000001"]),
        ("FLAGS", .arr2 [[.num 0, .num 1, .num 0, .num 1]]),
        ("FLUX", .arr2 [[.num 1, .num 2, .num 3, .num 4]]),
        ("HJD", .arr2 [[.num 7, .num 8, .num 9, .num 10]])]
      [("OBJ_ID", .sArr ["000001"]),
        ("FLAGS", .arr2 [[.num 0, .num 1, .num 0, .num 1]]),
        ("FLUX", .arr2 [[.num 1, Val.nan, .num 3, Val.nan]]),
        ("HJD", .arr2 [[.num 7, .num 8, .num 9, .num 10]])]
      ["000001"] [[.num 0, .num 1, .num 0, .num 1]]
      (by decide) (by decide) (by decide) (by decide)
    rw [h.2.2.1]
    decide

/-- C5 counterexample: a field of shape (1,1) collapses only its leading
axis — the result is a length-1 1-D array, not a scalar, because the two
collapses are an if/elif chain applied once. -/
theorem simplify_one_one_not_scalar :
    simplify_dic [("X", .arr2 [[.num 7]])] = [("X", .arr1 [.num 7])] ∧
    Entry.arr1 [.num 7] ≠ Entry.sca (.num 7) := by
  exact ⟨by decide, by decide⟩

/-- C5 (amended): per field, a leading length-1 axis is dropped; a 2-D field
whose trailing axis has length 1 has it dropped only when the leading axis
does not have length 1; hence (1,5) collapses to (5), (5,1) collapses to
(5), and (1,1) collapses to the 1-D shape (1), not to a scalar. -/
theorem simplify_dic_spec :
    (∀ (k : String) (m : List (List Val)), m.length = 1 →
      simplify_dic [(k, Entry.arr2 m)] = [(k, Entry.arr1 (m.headD []))]) ∧
    (∀ (k : String) (m : List (List Val)), m.length ≠ 1 → (m.headD []).length = 1 →
      simplify_dic [(k, Entry.arr2 m)]
        = [(k, Entry.arr1 (m.map (fun r => r.headD (.num 0))))]) ∧
    (∀ (k : String) (xs : List Val), xs.length = 1 →
      simplify_dic [(k, Entry.arr1 xs)] = [(k, Entry.sca (xs.headD (.num 0)))]) ∧
    simplify_dic [("A", .arr2 [[.num 1, .num 2, .num 3, .num 4, .num 5]])]
      = [("A", .arr1 [.num 1, .num 2, .num 3, .num 4, .num 5])] ∧
    simplify_dic [("B", .arr2 [[.num 1], [.num 2], [.num 3], [.num 4], [.num 5]])]
      = [("B", .arr1 [.num 1, .num 2, .num 3, .num 4, .num 5])] ∧
    simplify_dic [("C", .arr2 [[.num 7]])] = [("C", .arr1 [.num 7])] := by
  refine ⟨?_, ?_, ?_, by decide, by decide, by decide⟩
  · intro k m hm
    simp only [simplify_dic, List.map_cons, List.map_nil, simplifyEntry]
    rw [if_pos (by simp [hm])]
  · intro k m hm hr
    simp only [simplify_dic, List.map_cons, List.map_nil, simplifyEntry]
    rw [if_neg (by simp [hm]), if_pos (by simpa using hr)]
  · intro k xs hx
    simp only [simplify_dic, List.map_cons, List.map_nil, simplifyEntry]
    rw [if_pos (by simp [hx])]

/-- Witness for simplify_dic_spec at the three concrete shapes. -/
theorem simplify_dic_spec_witness :
    simplify_dic [("Y", Entry.arr2 [[.num 3], [.num 4]])]
      = [("Y", Entry.arr1 [.num 3, .num 4])] ∧
    ([[Val.num 3], [Val.num 4]].length ≠ 1 ∧
      ([[Val.num 3], [Val.num 4]].headD []).length = 1) := by
  refine ⟨?_, by decide, by decide⟩
  have h := (simplify_dic_spec).2.1 "Y" [[.num 3], [.num 4]] (by decide) (by decide)
  rw [h]
  rfl

end Ngtsio

namespace Ngtsio

/-!
## The table environment and slicing (TableJoinEngine)

The modelled configuration is the decomposed (prodstore) layout: a nights
catalogue/imagelist plus per-quantity 2-D files, an optional BLS file and an
optional CANVAS text file.  The megafile, sysrem, decorr, dilution and
sysrem_im sources are absent (their fnames entries are None), so the
corresponding branches of the two readers are skipped.
-/

structure BlsEnv where
  cat_cols : List (String × List Val)
  cand_objid : List String
  cand_rank : List Val
  cand_cols : List (String × List Val)
deriving DecidableEq

structure CanvasEnv where
  objid : List String
  cols : List (String × List Val)
deriving DecidableEq

structure DataEnv where
  cat_objid : List String
  cat_cols : List (String × List Val)
  im_cols : List (String × List Val)
  dataHDUs : List (String × List (List Val))
  bls : Option BlsEnv
  canvas : Option CanvasEnv
deriving DecidableEq

/-- A row/column selection: slice(None) or an explicit index list. -/
inductive Sel where
  | all
  | inds (l : List Int)
deriving DecidableEq

/-- numpy integer indexing with wrap-around for negative indices.
Out-of-range indices (an IndexError in numpy) return a junk default; the
claims are settled on in-range selections only. -/
def getWrapS (xs : List String) (i : Int) : String :=
  if 0 ≤ i then xs.getD i.toNat "" else xs.getD (i + xs.length).toNat ""

def getWrapV (xs : List Val) (i : Int) : Val :=
  if 0 ≤ i then xs.getD i.toNat (.num 0) else xs.getD (i + xs.length).toNat (.num 0)

def getWrapR (m : List (List Val)) (i : Int) : List Val :=
  if 0 ≤ i then m.getD i.toNat [] else m.getD (i + m.length).toNat []

def sliceS (xs : List String) : Sel → List String
  | .all => xs
  | .inds l => l.map (getWrapS xs)

def sliceV (xs : List Val) : Sel → List Val
  | .all => xs
  | .inds l => l.map (getWrapV xs)

def sliceRows (m : List (List Val)) : Sel → List (List Val)
  | .all => m
  | .inds l => l.map (getWrapR m)

/-- data[ind_objs][:, ind_time] (the pyfits 2-D read). -/
def slice2 (m : List (List Val)) (rows cols : Sel) : List (List Val) :=
  (sliceRows m rows).map (fun r => sliceV r cols)

/-- np.intersect1d: sorted unique common values. -/
def npIntersectS (a b : List String) : List String :=
  np_sortS ((a.filter (fun x => decide (x ∈ b))).dedup)

def colLookup (cols : List (String × List Val)) (k : String) : List Val :=
  ((cols.find? (fun p => p.1 == k)).map Prod.snd).getD []

def hduLookup (env : DataEnv) (k : String) : List (List Val) :=
  ((env.dataHDUs.find? (fun p => p.1 == k)).map Prod.snd).getD []

def catColnames (env : DataEnv) : List String := "OBJ_ID" :: env.cat_cols.map Prod.fst

def imNrows (env : DataEnv) : Nat := ((env.im_cols.headD ("", [])).2).length

/-- The CCDX/CCDY and CENTD* unit corrections with the default constants. -/
def applyCorr (k : String) (m : List (List Val)) : List (List Val) :=
  if k ∈ (["CCDX", "CCDY"] : List String) then m.map (fun r => r.map (valCorr 0 32))
  else if k ∈ (["CENTDX", "CENTDX_ERR", "CENTDY", "CENTDY_ERR"] : List String) then
    m.map (fun r => r.map (valCorr 0 1024))
  else m

/-- CATALOGUE section: one write per requested catalogue column. -/
def catWrites (env : DataEnv) (keys : List String) (ind_objs : Sel) :
    List (String × Entry) :=
  (npIntersectS (catColnames env) keys).map (fun k =>
    if k == "OBJ_ID" then (k, Entry.sArr (sliceS env.cat_objid ind_objs))
    else (k, Entry.arr1 (sliceV (colLookup env.cat_cols k) ind_objs)))

/-- IMAGELIST section. -/
def imWrites (env : DataEnv) (keys : List String) (ind_time : Sel) :
    List (String × Entry) :=
  (npIntersectS (env.im_cols.map Prod.fst) keys).map (fun k =>
    (k, Entry.arr1 (sliceV (colLookup env.im_cols k) ind_time)))

/-- pyfits DATA HDU section: fancy 2-D indexing per requested per-quantity
file, in request order. -/
def dataWritesPyfits (env : DataEnv) (keys : List String) (ind_objs ind_time : Sel) :
    List (String × Entry) :=
  (keys.filter (fun k => decide (k ∈ env.dataHDUs.map Prod.fst))).map (fun k =>
    (k, Entry.arr2 (applyCorr k (slice2 (hduLookup env k) ind_objs ind_time))))

/-- The fitsio per-row read: fetch the contiguous window covering the
requested time indices, then re-select when the window is wider than the
request.  (An empty time selection would be an IndexError in the source;
the model is only used on non-empty selections.) -/
def fitsioWindowRow (row : List Val) (ind_time : List Int) : List Val :=
  let t0 := ind_time.headD 0
  let t1 := ind_time.getLastD 0
  let buf := (row.drop t0.toNat).take (t1 + 1 - t0).toNat
  if buf.length ≠ ind_time.length then
    ind_time.map (fun t => buf.getD (t - t0).toNat (.num 0))
  else buf

/-- fitsio 2-D read: whole-axis read when the object selection was the
select-all slice, per-object reads otherwise. -/
def fitsioRead2 (m : List (List Val)) (ind_objs ind_time : List Int)
    (allobjects : Bool) : List (List Val) :=
  if allobjects then m.map (fun row => fitsioWindowRow row ind_time)
  else ind_objs.map (fun i => fitsioWindowRow (getWrapR m i) ind_time)

def dataWritesFitsio (env : DataEnv) (keys : List String) (indO indT : List Int)
    (allobjects : Bool) : List (String × Entry) :=
  (keys.filter (fun k => decide (k ∈ env.dataHDUs.map Prod.fst))).map (fun k =>
    (k, Entry.arr2 (applyCorr k (fitsioRead2 (hduLookup env k) indO indT allobjects))))

/-!
## The BLS (ranked-candidate) section of each reader
-/

def candColnames (b : BlsEnv) : List String :=
  "OBJ_ID" :: "RANK" :: b.cand_cols.map Prod.fst

def candColLookup (b : BlsEnv) (k : String) : List Val :=
  if k == "RANK" then b.cand_rank else colLookup b.cand_cols k

/-- Candidate rows matching both the selected identifiers and the requested
rank: np.intersect1d of the two index sets. -/
def blsCandInds (b : BlsEnv) (obj_ids : List String) (bls_rank : ℚ) : List Nat :=
  let candStr := b.cand_objid.map pstrip
  let inObj := (List.range candStr.length).filter
    (fun i => decide (candStr.getD i "" ∈ obj_ids))
  let inRank := (List.range b.cand_rank.length).filter
    (fun i => b.cand_rank.getD i (.num 0) == Val.num bls_rank)
  inObj.filter (fun i => decide (i ∈ inRank))

/-- The per-object candidate merge: a NaN-initialized array of length n,
filled per selected identifier from the rank-filtered candidate rows.  The
source indexes with np.where, which assumes at most one candidate row per
identifier at a given rank; the model takes the first match. -/
def candFill (n : Nat) (obj_ids : List String) (bls_data_objid : List String)
    (bls_data : List Val) : List Val :=
  (List.range n).map (fun i =>
    if i < obj_ids.length ∧ (obj_ids.getD i "") ∈ bls_data_objid then
      bls_data.getD (bls_data_objid.findIdx (fun x => x == obj_ids.getD i "")) (.num 0)
    else Val.nan)

/-- pyfits BLS section (source lines 1199-1250).  Note: when no candidate
row matches, the placeholder is np.zeros — plain zeros. -/
def blsWritesPyfits (b : BlsEnv) (dic : Dic) (obj_ids : List String)
    (ind_objs : Sel) (keys : List String) (bls_rank : ℚ) : List (String × Entry) :=
  let catW := ((npIntersectS ("OBJ_ID" :: b.cat_cols.map Prod.fst) keys).filter
      (fun k => !(k == "OBJ_ID"))).map
    (fun k => (k, Entry.arr1 (sliceV (colLookup b.cat_cols k) ind_objs)))
  let subkeys := (npIntersectS (candColnames b) keys).filter
    (fun k => decide (k ∉ (["OBJ_ID", "FLAGS", "SIGMA_XS"] : List String)))
  let nobjs := match dicGet dic "OBJ_ID" with
    | some (.sArr xs) => xs.length
    | _ => 0
  let ind_bls := blsCandInds b obj_ids bls_rank
  let candW :=
    if subkeys ≠ [] then
      if ind_bls ≠ [] then
        let bls_data_objid := ind_bls.map (fun i => pstrip (b.cand_objid.getD i ""))
        subkeys.map (fun k =>
          (k, Entry.arr1 (candFill nobjs obj_ids bls_data_objid
            (ind_bls.map (fun i => (candColLookup b k).getD i (.num 0))))))
      else
        subkeys.map (fun k => (k, Entry.arr1 (List.replicate nobjs (Val.num 0))))
    else []
  catW ++ candW

/-- fitsio BLS section (source lines 1511-1573).  Differences from pyfits
kept faithfully: FLAGS is also excluded from the BLS CATALOGUE keys,
SIGMA_XS is not excluded from the candidate keys, the array length is
len(ind_objs), and the no-candidate placeholder is np.zeros(..)*np.nan —
NaN. -/
def blsWritesFitsio (b : BlsEnv) (obj_ids : List String) (indO : List Int)
    (keys : List String) (bls_rank : ℚ) : List (String × Entry) :=
  let catW := ((npIntersectS ("OBJ_ID" :: b.cat_cols.map Prod.fst) keys).filter
      (fun k => decide (k ∉ (["OBJ_ID", "FLAGS"] : List String)))).map
    (fun k => (k, Entry.arr1 (sliceV (colLookup b.cat_cols k) (.inds indO))))
  let subkeys := (npIntersectS (candColnames b) keys).filter
    (fun k => decide (k ∉ (["OBJ_ID", "FLAGS"] : List String)))
  let ind_bls := blsCandInds b obj_ids bls_rank
  let candW :=
    if subkeys ≠ [] then
      if ind_bls ≠ [] then
        let bls_data_objid := ind_bls.map (fun i => pstrip (b.cand_objid.getD i ""))
        subkeys.map (fun k =>
          (k, Entry.arr1 (candFill indO.length obj_ids bls_data_objid
            (ind_bls.map (fun i => (candColLookup b k).getD i (.num 0))))))
      else
        subkeys.map (fun k => (k, Entry.arr1 (List.replicate indO.length Val.nan)))
    else []
  catW ++ candW

/-!
## The two reader backends (source lines 1117-1307 and 1315-1655)
-/

def pyfits_get_data (env : DataEnv) (obj_ids : List String) (ind_objs : Sel)
    (keys : List String) (bls_rank : ℚ) (ind_time : Sel) : Dic :=
  let dic : Dic := []
  let dic := dicSetMany dic (catWrites env keys ind_objs)
  let dic := dicSetMany dic (imWrites env keys ind_time)
  let dic := dicSetMany dic (dataWritesPyfits env keys ind_objs ind_time)
  match env.bls with
  | none => dic
  | some b => dicSetMany dic (blsWritesPyfits b dic obj_ids ind_objs keys bls_rank)

def fitsio_get_data (env : DataEnv) (obj_ids : List String) (ind_objs : Sel)
    (keys : List String) (bls_rank : ℚ) (ind_time : Sel) : Dic :=
  let allobjects : Bool := ind_objs == Sel.all
  let indO : List Int := match ind_objs with
    | .all => (List.range env.cat_objid.length).map (fun i : Nat => (i : Int))
    | .inds l => l
  let indT : List Int := match ind_time with
    | .all => (List.range (imNrows env)).map (fun i : Nat => (i : Int))
    | .inds l => l
  let dic : Dic := []
  let dic := dicSetMany dic (catWrites env keys (.inds indO))
  let dic := dicSetMany dic (imWrites env keys (.inds indT))
  let dic := dicSetMany dic (dataWritesFitsio env keys indO indT allobjects)
  match env.bls with
  | none => dic
  | some b => dicSetMany dic (blsWritesFitsio b obj_ids indO keys bls_rank)

/-!
## CANVAS merge (source lines 1663-1690)
-/

def valMulV : Val → Val → Val
  | .num a, .num b => .num (a * b)
  | _, _ => .nan

def get_canvas_data (canvas : Option CanvasEnv) (keys : List String) (dic : Dic) : Dic :=
  match canvas with
  | none => dic
  | some c =>
    let cids := objid_6digit c.objid
    let objids := match dicGet dic "OBJ_ID" with
      | some (.sArr xs) => xs
      | _ => []
    c.cols.foldl (fun dic kc =>
      if ("CANVAS_" ++ kc.1) ∈ keys then
        let base := objids.map (fun oid =>
          if oid ∈ cids then kc.2.getD (cids.findIdx (fun x => x == oid)) (.num 0)
          else Val.nan)
        let entry :=
          if kc.1 == "PERIOD" then Entry.arr1 (base.map (valMul 86400))
          else if kc.1 == "WIDTH" then
            Entry.arr1 (objids.map (fun oid =>
              if oid ∈ cids then
                valMul 86400 (valMulV
                  ((colLookup c.cols "WIDTH").getD (cids.findIdx (fun x => x == oid)) (.num 0))
                  ((colLookup c.cols "PERIOD").getD (cids.findIdx (fun x => x == oid)) (.num 0)))
              else Val.nan))
          else Entry.arr1 base
        dicSet dic ("CANVAS_" ++ kc.1) entry
      else dic) dic

/-!
## get_data (source lines 1059-1108)
-/

/-- len(ind_objs)==0 (resp. ind_time): only a resolved index list can be
empty; the select-all slice never is. -/
def selIsEmpty : Sel → Bool
  | .inds l => l.length == 0
  | .all => false

def get_data (env : DataEnv) (obj_ids : List String) (ind_objs : Sel)
    (keys0 : List String) (bls_rank : ℚ) (ind_time : Sel) (fitsreader : String) :
    Option (Dic × List String) :=
  if selIsEmpty ind_objs then
    some ([], keys0)
  else if selIsEmpty ind_time then
    some ([], keys0)
  else
    let keys := if "OBJ_ID" ∈ keys0 then keys0 else keys0 ++ ["OBJ_ID"]
    let dic? : Option Dic :=
      if fitsreader == "astropy" || fitsreader == "pyfits" then
        some (pyfits_get_data env obj_ids ind_objs keys bls_rank ind_time)
      else if fitsreader == "fitsio" || fitsreader == "cfitsio" then
        some (fitsio_get_data env obj_ids ind_objs keys bls_rank ind_time)
      else none
    match dic? with
    | none => none
    | some dic => some (get_canvas_data env.canvas keys dic, keys)

end Ngtsio

namespace Ngtsio

/-!
## The primary call surface get (source lines 36-268)

Modelled for the decomposed file layout (fnames given, no megafile), with
the time selectors absent (ind_time = slice(None)).  The float constant
180/np.pi of the radian-to-degree correction is the opaque parameter
degPerRad.
-/

def entryScale (c : ℚ) : Entry → Option Entry
  | .arr1 xs => some (.arr1 (xs.map (valMul c)))
  | .arr2 m => some (.arr2 (m.map (fun r => r.map (valMul c))))
  | .sca v => some (.sca (valMul c v))
  | _ => none

/-- The RA/DEC radian-to-degree conversion applied on historical dataset
versions; a requested but absent RA/DEC key is an uncaught KeyError. -/
def radec_conv (c : ℚ) (keys : List String) (dic : Dic) : Option Dic :=
  let stepRA : Option Dic :=
    if "RA" ∈ keys then
      match dicGet dic "RA" with
      | some e => (entryScale c e).map (fun e2 => dicSet dic "RA" e2)
      | none => none
    else some dic
  match stepRA with
  | none => none
  | some dic2 =>
    if "DEC" ∈ keys then
      match dicGet dic2 "DEC" with
      | some e => (entryScale c e).map (fun e2 => dicSet dic2 "DEC" e2)
      | none => none
    else some dic2

/-- The stages of get after the object resolution and non-emptiness check:
fetch, set_nan, FLAGS removal, RA/DEC conversion, simplify, and the
FIELDNAME/NGTS_VERSION writes (source lines 214-268). -/
def getTail (env : DataEnv) (obj_ids : List String) (ind_objs : Sel)
    (keys1 keys_0 : List String) (bls_rank degPerRad : ℚ)
    (fitsreader fieldname ngts_version : String) (simplify set_nan : Bool) :
    Option Dic × List String :=
  match get_data env obj_ids ind_objs keys1 bls_rank Sel.all fitsreader with
  | none => (none, keys1)
  | some dk =>
    let dic0 := dk.1
    let keys2 := dk.2
    let dicA : Option Dic := if set_nan then set_nan_dic dic0 else some dic0
    match dicA with
    | none => (none, keys2)
    | some dicB =>
      let dicC := if dicMem dicB "FLAGS" = true ∧ "FLAGS" ∉ keys_0 then
          dicDel dicB "FLAGS"
        else dicB
      let dicD : Option Dic :=
        if ngts_version ∈ (["TEST10", "TEST16", "TEST16A", "TEST18"] : List String) then
          radec_conv degPerRad keys2 dicC
        else some dicC
      match dicD with
      | none => (none, keys2)
      | some dicE =>
        let dicF := if simplify then simplify_dic dicE else dicE
        let dicG := dicSet dicF "FIELDNAME" (.sStr fieldname)
        let dicH := dicSet dicG "NGTS_VERSION" (.sStr ngts_version)
        (some dicH, keys2)

def get (fieldname ngts_version : String) (degPerRad : ℚ) (env : DataEnv)
    (keys : List String) (obj_id : Option ObjIdIn) (obj_row : Option ObjRowIn)
    (bls_rank : ℚ) (indexing fitsreader : String) (simplify set_nan : Bool) :
    Option Dic × List String :=
  let keys_0 := keys ++ ["OBJ_ID"]
  let keys1 := if set_nan ∧ "FLAGS" ∉ keys_0 then keys ++ ["FLAGS"] else keys
  let objEnv : ObjEnv :=
    ⟨env.cat_objid, env.bls.map BlsEnv.cand_objid, env.canvas.map CanvasEnv.objid⟩
  match get_obj_inds objEnv obj_id obj_row indexing with
  | none => (none, keys1)
  | some sel =>
    let ind_objs : Sel := match sel.1 with
      | .all _ => .all
      | .sel inds _ => .inds inds
    let obj_ids : List String := match sel.1 with
      | .all ids => ids
      | .sel _ ids => ids
    let proceed : Bool := match sel.1 with
      | .all _ => true
      | .sel inds _ => inds.length != 0
    if proceed then
      getTail env obj_ids ind_objs keys1 keys_0 bls_rank degPerRad
        fitsreader fieldname ngts_version simplify set_nan
    else (none, keys1)

/-!
## The keys-list mutation of get (source lines 202-212 and 1075-1079)

The caller's keys list is mutated in place: FLUX appended in megafile mode
when SYSREM_FLUX3 is requested, FLAGS appended for set_nan when absent, and
OBJ_ID appended inside get_data when absent and the fetch proceeds.  mega
abstracts whether fnames contains BLSPipe_megafile, proceed whether the
resolved selections are non-empty so get_data reaches its fetch branch. -/
def get_keys_mutation (keys : List String) (set_nan mega proceed : Bool) : List String :=
  let keys_0 := keys ++ ["OBJ_ID"]
  let k1 := if mega ∧ "SYSREM_FLUX3" ∈ keys then keys ++ ["FLUX"] else keys
  let k2 := if set_nan ∧ "FLAGS" ∉ keys_0 then k1 ++ ["FLAGS"] else k1
  if proceed ∧ "OBJ_ID" ∉ k2 then k2 ++ ["OBJ_ID"] else k2

end Ngtsio

namespace Ngtsio

/-!
## Key-membership facts about the dictionary operations
-/

theorem dicMem_map_keyfix (d : Dic) (F : String × Entry → String × Entry)
    (hF : ∀ p, (F p).1 = p.1) (k : String) : dicMem (d.map F) k = dicMem d k := by
  rw [dicMem, dicGet_map d F hF k, dicMem, dicGet]
  cases d.find? (fun p => p.1 == k) <;> rfl

theorem setUpd_keyfix (k : String) (v : Entry) :
    ∀ p : String × Entry, ((if p.1 == k then (k, v) else p) : String × Entry).1 = p.1 := by
  intro p
  by_cases hp : (p.1 == k) = true
  · rw [if_pos hp]
    exact (eq_of_beq hp).symm
  · rw [if_neg hp]

theorem find?_none_of_not_mem {d : Dic} {k : String} (h : ¬ dicMem d k = true) :
    d.find? (fun p => p.1 == k) = none := by
  rw [dicMem, dicGet] at h
  cases hf : d.find? (fun p => p.1 == k) with
  | none => rfl
  | some p =>
    rw [hf] at h
    exact absurd (by simp) h

theorem dicMem_set_self (d : Dic) (k : String) (v : Entry) :
    dicMem (dicSet d k v) k = true := by
  rw [dicSet]
  by_cases h : dicMem d k = true
  · rw [if_pos h, dicMem_map_keyfix d _ (setUpd_keyfix k v) k]
    exact h
  · rw [if_neg h, dicMem, dicGet, List.find?_append, find?_none_of_not_mem h]
    simp [List.find?]

theorem dicMem_set_mono (d : Dic) (k2 : String) (v : Entry) (k : String)
    (h : dicMem d k = true) : dicMem (dicSet d k2 v) k = true := by
  rw [dicSet]
  by_cases hm : dicMem d k2 = true
  · rw [if_pos hm, dicMem_map_keyfix d _ (setUpd_keyfix k2 v) k]
    exact h
  · rw [if_neg hm, dicMem, dicGet, List.find?_append]
    rw [dicMem, dicGet] at h
    cases hf : d.find? (fun p => p.1 == k) with
    | none => rw [hf] at h; exact absurd h (by simp)
    | some p => simp [Option.or]

theorem dicMem_setMany_mono (ws : List (String × Entry)) (d : Dic) (k : String)
    (h : dicMem d k = true) : dicMem (dicSetMany d ws) k = true := by
  induction ws generalizing d with
  | nil => exact h
  | cons w ws ih => exact ih _ (dicMem_set_mono d w.1 w.2 k h)

theorem dicMem_setMany_mem (ws : List (String × Entry)) (d : Dic) (k : String)
    (h : k ∈ ws.map Prod.fst) : dicMem (dicSetMany d ws) k = true := by
  induction ws generalizing d with
  | nil => exact absurd h (by simp)
  | cons w ws ih =>
    rw [List.map_cons] at h
    rcases List.mem_cons.mp h with h1 | h1
    · subst h1
      exact dicMem_setMany_mono ws _ _ (dicMem_set_self d _ w.2)
    · exact ih _ h1

theorem dicMem_del_ne (d : Dic) (k2 k : String) (hne : ¬ (k == k2) = true)
    (h : dicMem d k = true) : dicMem (dicDel d k2) k = true := by
  rw [dicMem, dicGet] at h ⊢
  rw [dicDel]
  cases hf : d.find? (fun p => p.1 == k) with
  | none => rw [hf] at h; exact absurd h (by simp)
  | some p =>
    have hb := List.find?_some hf
    have hkey : p.1 = k := eq_of_beq hb
    have hp : p ∈ d := List.mem_of_find?_eq_some hf
    have hp2 : p ∈ d.filter (fun q => !(q.1 == k2)) := by
      refine List.mem_filter.mpr ⟨hp, ?_⟩
      rw [hkey]
      simp only [Bool.not_eq_true'] at hne ⊢
      simpa using hne
    have hsome : ((d.filter (fun q => !(q.1 == k2))).find? (fun q => q.1 == k)).isSome = true :=
      List.find?_isSome.mpr ⟨p, hp2, hb⟩
    cases hf2 : (d.filter (fun q => !(q.1 == k2))).find? (fun q => q.1 == k) with
    | none => rw [hf2] at hsome; exact absurd hsome (by simp)
    | some q => simp

theorem dicMem_foldl_step_mono {β : Type} (f : Dic → β → Dic)
    (hf : ∀ d b k, dicMem d k = true → dicMem (f d b) k = true)
    (l : List β) (d : Dic) (k : String) (h : dicMem d k = true) :
    dicMem (l.foldl f d) k = true := by
  induction l generalizing d with
  | nil => exact h
  | cons b l ih => exact ih _ (hf d b k h)

theorem dicMem_canvas_mono (canvas : Option CanvasEnv) (keys : List String)
    (dic : Dic) (k : String) (h : dicMem dic k = true) :
    dicMem (get_canvas_data canvas keys dic) k = true := by
  cases canvas with
  | none => exact h
  | some c =>
    simp only [get_canvas_data]
    refine dicMem_foldl_step_mono _ ?_ c.cols dic k h
    intro d b k2 h2
    by_cases hc : ("CANVAS_" ++ b.1) ∈ keys
    · rw [if_pos hc]
      exact dicMem_set_mono _ _ _ _ h2
    · rw [if_neg hc]
      exact h2

theorem dicMem_set_nan {d d2 : Dic} (h : set_nan_dic d = some d2) (k : String) :
    dicMem d2 k = dicMem d k := by
  have happly : ∀ flags, set_nan_apply flags d = some d2 → dicMem d2 k = dicMem d k := by
    intro flags ha
    rw [set_nan_apply_eq ha]
    exact dicMem_map_keyfix d _ (nanUpd_key flags) k
  have hsingle : set_nan_single d = some d2 → dicMem d2 k = dicMem d k := by
    intro hs
    rw [set_nan_single] at hs
    cases hf : dicGet d "FLAGS" with
    | none =>
      simp only [hf] at hs
      exact absurd hs (by simp)
    | some ef =>
      simp only [hf] at hs
      cases ef with
      | arr2 flags => exact happly flags hs
      | sArr a => simp at hs
      | sStr a => simp at hs
      | arr1 a => simp at hs
      | sca a => simp at hs
  have hmulti : set_nan_multi d = some d2 → dicMem d2 k = dicMem d k := by
    intro hs
    rw [set_nan_multi] at hs
    cases hf : dicGet d "FLAGS" with
    | none =>
      simp only [hf] at hs
      exact absurd hs (by simp)
    | some ef =>
      simp only [hf] at hs
      cases ef with
      | arr2 flags => exact happly flags hs
      | sArr a => simp at hs
      | sStr a => simp at hs
      | arr1 a => simp at hs
      | sca a => simp at hs
  cases ho : dicGet d "OBJ_ID" with
  | none =>
    simp only [set_nan_dic, ho] at h
    exact absurd h (by simp)
  | some e =>
    cases e with
    | sArr xs =>
      simp only [set_nan_dic, ho] at h
      by_cases h1 : (xs.length == 1) = true
      · rw [if_pos h1] at h
        exact hsingle h
      · rw [if_neg h1] at h
        by_cases h2 : 1 < xs.length
        · rw [if_pos h2] at h
          exact hmulti h
        · rw [if_neg h2] at h
          simp only [Option.some.injEq] at h
          rw [h]
    | sStr a => simp only [set_nan_dic, ho] at h; exact absurd h (by simp)
    | arr1 a => simp only [set_nan_dic, ho] at h; exact absurd h (by simp)
    | arr2 a => simp only [set_nan_dic, ho] at h; exact absurd h (by simp)
    | sca a => simp only [set_nan_dic, ho] at h; exact absurd h (by simp)

theorem dicMem_radec {c : ℚ} {keys : List String} {d d2 : Dic}
    (h : radec_conv c keys d = some d2) (k : String) (hk : dicMem d k = true) :
    dicMem d2 k = true := by
  have hdec : ∀ (dm : Dic), dicMem dm k = true →
      (if "DEC" ∈ keys then
        match dicGet dm "DEC" with
        | some e => (entryScale c e).map (fun e2 => dicSet dm "DEC" e2)
        | none => none
      else some dm) = some d2 → dicMem d2 k = true := by
    intro dm hm hh
    by_cases hde : "DEC" ∈ keys
    · rw [if_pos hde] at hh
      cases hr2 : dicGet dm "DEC" with
      | none => simp only [hr2] at hh; exact absurd hh (by simp)
      | some e3 =>
        simp only [hr2] at hh
        cases hs2 : entryScale c e3 with
        | none => simp only [hs2] at hh; exact absurd hh (by simp)
        | some e4 =>
          simp only [hs2, Option.map_some', Option.some.injEq] at hh
          rw [← hh]
          exact dicMem_set_mono dm _ _ k hm
    · rw [if_neg hde] at hh
      simp only [Option.some.injEq] at hh
      rw [← hh]
      exact hm
  rw [radec_conv] at h
  by_cases hra : "RA" ∈ keys
  · rw [if_pos hra] at h
    cases hr : dicGet d "RA" with
    | none => simp only [hr] at h; exact absurd h (by simp)
    | some e =>
      simp only [hr] at h
      cases hs : entryScale c e with
      | none => simp only [hs] at h; exact absurd h (by simp)
      | some e2 =>
        simp only [hs, Option.map_some'] at h
        exact hdec (dicSet d "RA" e2) (dicMem_set_mono d _ _ k hk) h
  · rw [if_neg hra] at h
    exact hdec d hk h

theorem dicMem_simplify (d : Dic) (k : String) :
    dicMem (simplify_dic d) k = dicMem d k :=
  dicMem_map_keyfix d (fun p => (p.1, simplifyEntry p.2)) (fun _ => rfl) k

end Ngtsio

namespace Ngtsio

/-!
## OBJ_ID is always part of a non-empty fetch result
-/

theorem mem_npIntersectS (a b : List String) (x : String) :
    x ∈ npIntersectS a b ↔ x ∈ a ∧ x ∈ b := by
  rw [npIntersectS, np_sortS]
  rw [(List.perm_insertionSort sLe ((a.filter (fun y => decide (y ∈ b))).dedup)).mem_iff]
  rw [List.mem_dedup, List.mem_filter]
  simp

theorem objid_mem_catWrites (env : DataEnv) (keys : List String) (io : Sel)
    (h : "OBJ_ID" ∈ keys) : "OBJ_ID" ∈ (catWrites env keys io).map Prod.fst := by
  have hm : "OBJ_ID" ∈ npIntersectS (catColnames env) keys :=
    (mem_npIntersectS _ _ _).mpr ⟨List.mem_cons_self _ _, h⟩
  rw [catWrites]
  exact List.mem_map.mpr ⟨("OBJ_ID", Entry.sArr (sliceS env.cat_objid io)),
    List.mem_map.mpr ⟨"OBJ_ID", hm, by simp⟩, rfl⟩

theorem dicMem_pyfits_objid (env : DataEnv) (obj_ids : List String) (io : Sel)
    (keys : List String) (r : ℚ) (it : Sel) (h : "OBJ_ID" ∈ keys) :
    dicMem (pyfits_get_data env obj_ids io keys r it) "OBJ_ID" = true := by
  have h0 : dicMem (dicSetMany (dicSetMany (dicSetMany ([] : Dic)
      (catWrites env keys io)) (imWrites env keys it))
      (dataWritesPyfits env keys io it)) "OBJ_ID" = true :=
    dicMem_setMany_mono _ _ _ (dicMem_setMany_mono _ _ _
      (dicMem_setMany_mem _ _ _ (objid_mem_catWrites env keys io h)))
  rw [pyfits_get_data]
  cases henv : env.bls with
  | none => exact h0
  | some b => exact dicMem_setMany_mono _ _ _ h0

theorem dicMem_fitsio_objid (env : DataEnv) (obj_ids : List String) (io : Sel)
    (keys : List String) (r : ℚ) (it : Sel) (h : "OBJ_ID" ∈ keys) :
    dicMem (fitsio_get_data env obj_ids io keys r it) "OBJ_ID" = true := by
  rw [fitsio_get_data.eq_def]
  cases henv : env.bls with
  | none =>
    exact dicMem_setMany_mono _ _ _ (dicMem_setMany_mono _ _ _
      (dicMem_setMany_mem _ _ _ (objid_mem_catWrites env keys _ h)))
  | some b =>
    exact dicMem_setMany_mono _ _ _ (dicMem_setMany_mono _ _ _ (dicMem_setMany_mono _ _ _
      (dicMem_setMany_mem _ _ _ (objid_mem_catWrites env keys _ h))))

theorem get_data_objid (env : DataEnv) (obj_ids : List String) (io : Sel)
    (keys0 : List String) (r : ℚ) (fr : String) (dic : Dic) (ks : List String)
    (hne : selIsEmpty io = false)
    (h : get_data env obj_ids io keys0 r Sel.all fr = some (dic, ks)) :
    dicMem dic "OBJ_ID" = true ∧ "OBJ_ID" ∈ ks := by
  have hK : "OBJ_ID" ∈ (if "OBJ_ID" ∈ keys0 then keys0 else keys0 ++ ["OBJ_ID"]) := by
    by_cases h0 : "OBJ_ID" ∈ keys0
    · rw [if_pos h0]; exact h0
    · rw [if_neg h0]; exact List.mem_append_right _ (by simp)
  rw [get_data] at h
  rw [if_neg (by rw [hne]; exact Bool.false_ne_true)] at h
  rw [if_neg (by rw [show selIsEmpty Sel.all = false from rfl]; exact Bool.false_ne_true)] at h
  simp only [] at h
  by_cases h1 : (fr == "astropy" || fr == "pyfits") = true
  · rw [if_pos h1] at h
    simp only [Option.some.injEq, Prod.mk.injEq] at h
    obtain ⟨h2, h3⟩ := h
    subst h2; subst h3
    exact ⟨dicMem_canvas_mono _ _ _ _ (dicMem_pyfits_objid env obj_ids io _ r Sel.all hK), hK⟩
  · rw [if_neg h1] at h
    by_cases h2 : (fr == "fitsio" || fr == "cfitsio") = true
    · rw [if_pos h2] at h
      simp only [Option.some.injEq, Prod.mk.injEq] at h
      obtain ⟨h3, h4⟩ := h
      subst h3; subst h4
      exact ⟨dicMem_canvas_mono _ _ _ _ (dicMem_fitsio_objid env obj_ids io _ r Sel.all hK), hK⟩
    · rw [if_neg h2] at h
      exact absurd h (by simp)

end Ngtsio

namespace Ngtsio

theorem dicMem_opt_set_nan (b : Bool) (d d2 : Dic) (k : String)
    (h : (if b = true then set_nan_dic d else some d) = some d2)
    (hm : dicMem d k = true) : dicMem d2 k = true := by
  cases b with
  | true =>
    rw [if_pos rfl] at h
    rw [dicMem_set_nan h k]
    exact hm
  | false =>
    rw [if_neg (by simp)] at h
    exact Option.some.inj h ▸ hm

theorem dicMem_opt_del (c : Prop) [Decidable c] (d : Dic) (k : String)
    (hk : ¬ (k == "FLAGS") = true) (hm : dicMem d k = true) :
    dicMem (if c then dicDel d "FLAGS" else d) k = true := by
  by_cases hc : c
  · rw [if_pos hc]; exact dicMem_del_ne d "FLAGS" k hk hm
  · rw [if_neg hc]; exact hm

theorem dicMem_opt_radec (c : Prop) [Decidable c] (q : ℚ) (keys2 : List String)
    (d d2 : Dic) (k : String)
    (h : (if c then radec_conv q keys2 d else some d) = some d2)
    (hm : dicMem d k = true) : dicMem d2 k = true := by
  by_cases hc : c
  · rw [if_pos hc] at h; exact dicMem_radec h k hm
  · rw [if_neg hc] at h; exact Option.some.inj h ▸ hm

theorem dicMem_opt_simplify (b : Bool) (d : Dic) (k : String) (hm : dicMem d k = true) :
    dicMem (if b = true then simplify_dic d else d) k = true := by
  cases b with
  | true => rw [if_pos rfl, dicMem_simplify]; exact hm
  | false => rw [if_neg (by simp)]; exact hm

theorem get_tail_objid (env : DataEnv) (obj_ids : List String) (io : Sel)
    (K1 keys_0 : List String) (bls_rank degPerRad : ℚ)
    (fitsreader fieldname ngts_version : String) (simplify set_nan : Bool)
    (dic : Dic) (ks : List String) (hne : selIsEmpty io = false)
    (hres : getTail env obj_ids io K1 keys_0 bls_rank degPerRad
      fitsreader fieldname ngts_version simplify set_nan = (some dic, ks)) :
    dicMem dic "OBJ_ID" = true ∧ "OBJ_ID" ∈ ks := by
  rw [getTail] at hres
  cases hgd : get_data env obj_ids io K1 bls_rank Sel.all fitsreader with
  | none =>
    simp only [hgd] at hres
    exact absurd (congrArg Prod.fst hres) (by simp)
  | some dk =>
    simp only [hgd] at hres
    obtain ⟨hm0, hk0⟩ :=
      get_data_objid env obj_ids io K1 bls_rank fitsreader dk.1 dk.2 hne (by rw [hgd])
    cases hA : (if set_nan = true then set_nan_dic dk.1 else some dk.1) with
    | none =>
      simp only [hA] at hres
      exact absurd (congrArg Prod.fst hres) (by simp)
    | some dicB =>
      simp only [hA] at hres
      have hmB : dicMem dicB "OBJ_ID" = true :=
        dicMem_opt_set_nan set_nan dk.1 dicB "OBJ_ID" hA hm0
      cases hD : (if ngts_version ∈ (["TEST10", "TEST16", "TEST16A", "TEST18"] : List String) then
          radec_conv degPerRad dk.2
            (if dicMem dicB "FLAGS" = true ∧ "FLAGS" ∉ keys_0 then dicDel dicB "FLAGS" else dicB)
        else
          some (if dicMem dicB "FLAGS" = true ∧ "FLAGS" ∉ keys_0 then
            dicDel dicB "FLAGS" else dicB)) with
      | none =>
        simp only [hD] at hres
        exact absurd (congrArg Prod.fst hres) (by simp)
      | some dicE =>
        simp only [hD] at hres
        have hmC : dicMem (if dicMem dicB "FLAGS" = true ∧ "FLAGS" ∉ keys_0 then
            dicDel dicB "FLAGS" else dicB) "OBJ_ID" = true :=
          dicMem_opt_del _ dicB "OBJ_ID" (by decide) hmB
        have hmE : dicMem dicE "OBJ_ID" = true :=
          dicMem_opt_radec _ degPerRad dk.2 _ dicE "OBJ_ID" hD hmC
        rw [Prod.mk.injEq, Option.some.injEq] at hres
        obtain ⟨hd, hk⟩ := hres
        subst hd
        subst hk
        exact ⟨dicMem_set_mono _ _ _ _ (dicMem_set_mono _ _ _ _
          (dicMem_opt_simplify simplify dicE "OBJ_ID" hmE)), hk0⟩

end Ngtsio

namespace Ngtsio

/-- C6: get force-includes OBJ_ID, and (amended) never strips it back out:
the stripping step of the source is commented out, so every successful call
returns a dictionary that contains the key OBJ_ID and a final key list with
OBJ_ID appended when it was missing, whether or not the caller requested it. -/
theorem get_includes_obj_id (fieldname ngts_version : String) (degPerRad : ℚ)
    (env : DataEnv) (keys : List String) (obj_id : Option ObjIdIn)
    (obj_row : Option ObjRowIn) (bls_rank : ℚ) (indexing fitsreader : String)
    (simplify set_nan : Bool) (dic : Dic) (ks : List String)
    (hres : get fieldname ngts_version degPerRad env keys obj_id obj_row
      bls_rank indexing fitsreader simplify set_nan = (some dic, ks)) :
    dicMem dic "OBJ_ID" = true ∧ "OBJ_ID" ∈ ks := by
  rw [get] at hres
  cases hsel : get_obj_inds ⟨env.cat_objid, env.bls.map BlsEnv.cand_objid,
      env.canvas.map CanvasEnv.objid⟩ obj_id obj_row indexing with
  | none =>
    simp only [hsel] at hres
    exact absurd (congrArg Prod.fst hres) (by simp)
  | some sel =>
    obtain ⟨s1, w⟩ := sel
    cases s1 with
    | all ids =>
      simp only [hsel] at hres
      exact get_tail_objid env ids Sel.all
        (if set_nan ∧ "FLAGS" ∉ keys ++ ["OBJ_ID"] then keys ++ ["FLAGS"] else keys)
        (keys ++ ["OBJ_ID"]) bls_rank degPerRad
        fitsreader fieldname ngts_version simplify set_nan dic ks rfl hres
    | sel inds ids0 =>
      simp only [hsel] at hres
      by_cases hp : (inds.length != 0) = true
      · rw [if_pos hp] at hres
        exact get_tail_objid env ids0 (Sel.inds inds)
          (if set_nan ∧ "FLAGS" ∉ keys ++ ["OBJ_ID"] then keys ++ ["FLAGS"] else keys)
          (keys ++ ["OBJ_ID"]) bls_rank degPerRad
          fitsreader fieldname ngts_version simplify set_nan dic ks
          (by simpa [selIsEmpty] using hp) hres
      · rw [if_neg hp] at hres
        exact absurd (congrArg Prod.fst hres) (by simp)

end Ngtsio

namespace Ngtsio

/-- A two-object dataset whose BLS candidate table has one candidate for
object 000001 at rank 2: a query at bls_rank 1 matches no candidate row. -/
def blsDemoEnv : DataEnv :=
  ⟨["000001", "000002"], [("RA", [.num 1, .num 2])], [("ACTIONID", [.num 9])], [],
    some ⟨[], ["000001"], [.num 2], [("DEPTH", [.num 5])]⟩, none⟩

/-- C2: counterexample — on identical inputs whose requested candidate field
DEPTH has no candidate row at the requested rank, the pyfits backend fills
the placeholder with 0 while the fitsio backend fills it with NaN, so the
two result dictionaries differ. -/
theorem backends_disagree_on_missing_candidates :
    dicGet (pyfits_get_data blsDemoEnv ["000001"] (.inds [0]) ["DEPTH", "OBJ_ID"] 1 Sel.all)
        "DEPTH" = some (.arr1 [Val.num 0]) ∧
      dicGet (fitsio_get_data blsDemoEnv ["000001"] (.inds [0]) ["DEPTH", "OBJ_ID"] 1 Sel.all)
        "DEPTH" = some (.arr1 [Val.nan]) ∧
      (Entry.arr1 [Val.num 0] : Entry) ≠ Entry.arr1 [Val.nan] :=
  ⟨by decide, by decide, by decide⟩

/-- A one-HDU dataset used to exercise the full get pipeline concretely. -/
def nightsDemoEnv : DataEnv :=
  ⟨["000001", "000002"], [("RA", [.num 1, .num 2])], [("ACTIONID", [.num 9])],
    [("FLUX3", [[.num 10], [.num 20]])], none, none⟩

/-- C6: counterexample to the original claim — a call that omits OBJ_ID from
its requested keys still returns a dictionary containing the key OBJ_ID, and
reports a final key list with OBJ_ID appended. -/
theorem get_keeps_obj_id_concrete :
    "OBJ_ID" ∉ (["FLUX3"] : List String) ∧
      (get "F" "V" 57 nightsDemoEnv ["FLUX3"] none none 1 "fits" "fitsio"
        true false).1.map (fun d => dicMem d "OBJ_ID") = some true ∧
      (get "F" "V" 57 nightsDemoEnv ["FLUX3"] none none 1 "fits" "fitsio"
        true false).2 = ["FLUX3", "OBJ_ID"] :=
  ⟨by decide, by decide, by decide⟩

theorem get_includes_obj_id_witness :
    dicMem ((get "F" "V" 57 nightsDemoEnv ["FLUX3"] none none 1 "fits" "fitsio"
        true false).1.getD []) "OBJ_ID" = true ∧
      "OBJ_ID" ∈ (get "F" "V" 57 nightsDemoEnv ["FLUX3"] none none 1 "fits" "fitsio"
        true false).2 :=
  get_includes_obj_id "F" "V" 57 nightsDemoEnv ["FLUX3"] none none 1 "fits" "fitsio"
    true false
    ((get "F" "V" 57 nightsDemoEnv ["FLUX3"] none none 1 "fits" "fitsio" true false).1.getD [])
    (get "F" "V" 57 nightsDemoEnv ["FLUX3"] none none 1 "fits" "fitsio" true false).2
    (by decide)

/-- C10: the keys-list mutation of get — with FLAGS and OBJ_ID absent from
and SYSREM_FLUX3 present in the caller's list, the list ends the call with
FLUX, FLAGS and OBJ_ID appended (under megafile mode, set_nan and a
non-empty selection), with only OBJ_ID appended when those switches are off
but the fetch proceeds, and unchanged when the fetch never proceeds; in the
mutating cases the list the caller passed in is no longer equal to the list
it supplied. -/
theorem get_mutates_keys (keys : List String)
    (h1 : "FLAGS" ∉ keys) (h2 : "SYSREM_FLUX3" ∈ keys) (h3 : "OBJ_ID" ∉ keys) :
    get_keys_mutation keys true true true = keys ++ ["FLUX", "FLAGS", "OBJ_ID"] ∧
      get_keys_mutation keys false false true = keys ++ ["OBJ_ID"] ∧
      get_keys_mutation keys false false false = keys ∧
      get_keys_mutation keys true true true ≠ keys := by
  have hA : get_keys_mutation keys true true true = keys ++ ["FLUX", "FLAGS", "OBJ_ID"] := by
    simp [get_keys_mutation, h1, h2, h3]
  have hB : get_keys_mutation keys false false true = keys ++ ["OBJ_ID"] := by
    simp [get_keys_mutation, h3]
  have hC : get_keys_mutation keys false false false = keys := by
    simp [get_keys_mutation]
  refine ⟨hA, hB, hC, ?_⟩
  rw [hA]
  intro hEq
  have hl := congrArg List.length hEq
  simp [List.length_append] at hl

theorem get_mutates_keys_witness :
    get_keys_mutation ["SYSREM_FLUX3"] true true true =
        ["SYSREM_FLUX3"] ++ ["FLUX", "FLAGS", "OBJ_ID"] ∧
      get_keys_mutation ["SYSREM_FLUX3"] false false true = ["SYSREM_FLUX3"] ++ ["OBJ_ID"] ∧
      get_keys_mutation ["SYSREM_FLUX3"] false false false = ["SYSREM_FLUX3"] ∧
      get_keys_mutation ["SYSREM_FLUX3"] true true true ≠ ["SYSREM_FLUX3"] :=
  get_mutates_keys ["SYSREM_FLUX3"] (by decide) (by decide) (by decide)

end Ngtsio
